import Mathlib

/-!
# apiContrato: the contract lookup service

A shallow embedding of `src/apiContrato.go`.

* The repository (`sqlServerRepository.GetByID`), the handler
  (`ContratoHandler.GetContrato`) and the process entry point (`main`) are
  translated statement by statement.
* Effects are made explicit: the handler threads a `ResponseWriter` value,
  and returns the lines it logged and the repository calls it made; `main`
  returns the ordered list of the effects it performed and its exit code.
* The Go standard library is outside the repository.  The parts the program
  calls (`url.Values.Get`, `strconv.Atoi`, `http.Error`, `json.Encoder.Encode`,
  `time.Time.MarshalJSON`) are modelled below, each next to a comment that
  says what it stands for.  The database driver, the environment and the
  scheduler are oracles carried by the arguments.
* Go `int` is 64 bits wide; it is embedded as `Int`, with the range check
  made explicit where the library makes one (`strconv.Atoi`, decoding a JSON
  number into an `int`).
* Byte strings written to the response are lists of characters.
* The response writer records what the handler hands to it: the headers, the
  status and the bytes passed to `Write`.  Whether the connection accepts a
  write is an oracle carried by the writer (`writeErr`), so `Encode` fails
  when marshalling fails and when the write fails.
* A `time.Time` is represented by its civil reading (date, clock, nanosecond
  and zone offset), which is what the RFC 3339 formatter consumes and what the
  parser produces.
-/

namespace apiContrato

deriving instance DecidableEq for Except

/-! ## Errors and contexts -/

/-- Go `error` values.  The sentinels are the ones the program can tell apart
by identity (`err == sql.ErrNoRows`, `err != http.ErrServerClosed`) and the
two of package `context`. -/
inductive Error where
  | sqlErrNoRows
  | contextCanceled
  | contextDeadlineExceeded
  | httpErrServerClosed
  | other (msg : String)
  deriving DecidableEq, Repr

/-- The `Error()` method: the text `%v` prints. -/
def Error.text : Error → String
  | .sqlErrNoRows => "sql: no rows in result set"
  | .contextCanceled => "context canceled"
  | .contextDeadlineExceeded => "context deadline exceeded"
  | .httpErrServerClosed => "http: Server closed"
  | .other msg => msg

/-- A `context.Context`: the identity of the scope and, when it was made by
`context.WithTimeout`, its timeout in seconds. -/
structure Context where
  key : Nat
  timeout : Option Nat
  deriving DecidableEq, Repr

/-- Go `context.Background()`. -/
def Context.Background : Context := { key := 0, timeout := none }

/-- Go `context.WithTimeout(parent, d)`, `d` in seconds. -/
def Context.WithTimeout (parent : Context) (d : Nat) : Context :=
  { key := parent.key, timeout := some d }

/-! ## Entity -/

/-- A `time.Time`, represented by its civil reading: what `Date`, `Clock`,
`Nanosecond` and `Zone` report (offset in seconds east of UTC). -/
structure Time where
  year : Int
  month : Nat
  day : Nat
  hour : Nat
  minute : Nat
  second : Nat
  nsec : Nat
  offset : Int
  deriving DecidableEq, Repr

/-- The zero `time.Time`: January 1, year 1, 00:00:00 UTC. -/
def Time.zero : Time :=
  { year := 1, month := 1, day := 1, hour := 0, minute := 0, second := 0, nsec := 0, offset := 0 }

/-- Source `type Contrato struct`, JSON keys `contrato_numero`, `cliente_id`,
`fecha_ingreso`. -/
structure Contrato where
  ContratoNumero : Int
  ClienteID : Int
  FechaIngreso : Time
  deriving DecidableEq, Repr

/-- The zero value `var c Contrato`. -/
def Contrato.zero : Contrato :=
  { ContratoNumero := 0, ClienteID := 0, FechaIngreso := Time.zero }

/-! ## Repository -/

/-- The pair `(*Contrato, error)` a `GetByID` returns; `none` is `nil`. -/
structure RepoResult where
  contrato : Option Contrato
  err : Option Error
  deriving DecidableEq, Repr

/-- Source `type ContratoRepository interface`. -/
structure ContratoRepository where
  GetByID : Context → Int → RepoResult

/-- What `db.QueryRowContext(ctx, query, args...).Scan(dest...)` does: the
values left in the three destinations and the error returned. -/
structure ScanResult where
  dest : Contrato
  err : Option Error
  deriving DecidableEq, Repr

/-- A `*sql.DB`: the pool is an oracle answering a query with a scan result. -/
structure DB where
  QueryRowScan : Context → String → List Int → ScanResult

/-- Source `type sqlServerRepository struct`. -/
structure sqlServerRepository where
  db : DB

/-- The query text of `GetByID`. -/
def sqlServerRepository.query : String :=
  "\n\t\tSELECT Contrato_Numero, Cliente_Id, Fecha_Ingreso \n\t\tFROM Contrato \n\t\tWHERE Contrato_Id = @p1;"

/-- Source `func (r *sqlServerRepository) GetByID(ctx, id) (*Contrato, error)`. -/
def sqlServerRepository.GetByID (r : sqlServerRepository) (ctx : Context) (id : Int) :
    RepoResult :=
  let scan := r.db.QueryRowScan ctx sqlServerRepository.query [id]
  let c := scan.dest
  match scan.err with
  | some err =>
    if err = Error.sqlErrNoRows then
      { contrato := none, err := none }
    else
      { contrato := none, err := some err }
  | none => { contrato := some c, err := none }

/-- Source `func NewContratoRepository(db *sql.DB) ContratoRepository`. -/
def NewContratoRepository (db : DB) : ContratoRepository :=
  { GetByID := sqlServerRepository.GetByID { db := db } }

/-! ## Library: query values and `strconv.Atoi` -/

/-- Go `url.Values`: keys with their lists of values. -/
abbrev Values := List (String × List String)

/-- Go `func (v Values) Get(key string) string`: the first value of the key,
`""` when there is none. -/
def Values.Get (v : Values) (key : String) : String :=
  match v.lookup key with
  | some (x :: _) => x
  | _ => ""

/-- Go `strconv.NumError.Err`. -/
inductive NumError where
  | ErrSyntax
  | ErrRange
  deriving DecidableEq, Repr

/-- The width of `int`. -/
def intSize : Nat := 64

/-- Is the byte a decimal digit. -/
def isDigit (c : Char) : Bool := 48 ≤ c.toNat && c.toNat ≤ 57

/-- The value of a decimal digit byte, `c - 48`. -/
def digitVal (c : Char) : Nat := c.toNat - 48

/-- The loop of the fast path of `strconv.Atoi`: no overflow is possible. -/
def atoiFast : List Char → Nat → Option Nat
  | [], n => some n
  | ch :: rest, n => if isDigit ch then atoiFast rest (n * 10 + digitVal ch) else none

/-- The loop of `strconv.ParseUint(s, 10, 64)`: a non-digit is a syntax error,
an overflow of `uint64` a range error, whichever comes first. -/
def parseUintLoop : List Char → Nat → Except NumError Nat
  | [], n => .ok n
  | ch :: rest, n =>
    if !isDigit ch then .error .ErrSyntax
    else if n ≥ (2 ^ 64 - 1) / 10 + 1 then .error .ErrRange
    else if n * 10 + digitVal ch > 2 ^ 64 - 1 then .error .ErrRange
    else parseUintLoop rest (n * 10 + digitVal ch)

/-- Go `strconv.ParseUint(s, 10, 64)`. -/
def ParseUint (s : List Char) : Except NumError Nat :=
  if s = [] then .error .ErrSyntax else parseUintLoop s 0

/-- Go `strconv.ParseInt(s, 10, 0)`. -/
def ParseInt (s : List Char) : Except NumError Int :=
  match s with
  | [] => .error .ErrSyntax
  | c :: rest =>
    let neg := decide (c = '-')
    let s1 := if c = '+' ∨ c = '-' then rest else s
    match ParseUint s1 with
    | .error e => .error e
    | .ok un =>
      let cutoff := 2 ^ (intSize - 1)
      if !neg && un ≥ cutoff then .error .ErrRange
      else if neg && un > cutoff then .error .ErrRange
      else .ok (if neg then - (un : Int) else (un : Int))

/-- Go `strconv.Atoi`: the fast path for strings shorter than 19 bytes, else
`ParseInt(s, 10, 0)`. -/
def strconv.Atoi (str : String) : Except NumError Int :=
  let s := str.toList
  if 0 < s.length ∧ s.length < 19 then
    match s with
    | [] => .error .ErrSyntax
    | c :: rest =>
      let s1 := if c = '-' ∨ c = '+' then rest else s
      if s1.length < 1 then .error .ErrSyntax
      else
        match atoiFast s1 0 with
        | none => .error .ErrSyntax
        | some n => .ok (if c = '-' then - (n : Int) else (n : Int))
  else ParseInt s

/-! ## Library: the response writer and `http.Error` -/

/-- An `http.ResponseWriter` that records: the header map, the status code
once `WriteHeader` has run, the bytes handed to `Write` so far, and the error
the connection answers a `Write` with (`none` when it accepts the bytes). -/
structure ResponseWriter where
  header : List (String × String)
  code : Option Nat
  body : List Char
  writeErr : Option Error
  deriving DecidableEq, Repr

/-- The writer the server hands to a handler, on a connection that accepts
what is written. -/
def ResponseWriter.fresh : ResponseWriter :=
  { header := [], code := none, body := [], writeErr := none }

/-- The writer the server hands to a handler, on a connection that the client
has closed: every write is answered with an error. -/
def ResponseWriter.broken : ResponseWriter :=
  { header := [], code := none, body := [],
    writeErr := some (.other "write tcp 127.0.0.1:8080: write: broken pipe") }

/-- Go `Header.Del`. -/
def ResponseWriter.DelHeader (w : ResponseWriter) (k : String) : ResponseWriter :=
  { w with header := w.header.filter (fun kv => kv.1 != k) }

/-- Go `Header.Set`. -/
def ResponseWriter.SetHeader (w : ResponseWriter) (k v : String) : ResponseWriter :=
  { w with header := (w.header.filter (fun kv => kv.1 != k)) ++ [(k, v)] }

/-- Go `Header.Get`. -/
def ResponseWriter.GetHeader (w : ResponseWriter) (k : String) : String :=
  (w.header.lookup k).getD ""

/-- Go `WriteHeader`: the first call fixes the status, later ones are ignored. -/
def ResponseWriter.WriteHeader (w : ResponseWriter) (code : Nat) : ResponseWriter :=
  match w.code with
  | some _ => w
  | none => { w with code := some code }

/-- Go `Write`: sends status 200 first when no status was written, takes the
bytes, and returns the error of the connection, if any. -/
def ResponseWriter.Write (w : ResponseWriter) (b : List Char) :
    ResponseWriter × Option Error :=
  let w1 := w.WriteHeader 200
  ({ w1 with body := w1.body ++ b }, w1.writeErr)

/-- The status line the client receives: the server sends 200 when the
handler returns without having written one. -/
def ResponseWriter.status (w : ResponseWriter) : Nat := w.code.getD 200

/-- Go `http.Error(w, error, code)`; the result of the final `fmt.Fprintln` is
discarded. -/
def http.Error (w : ResponseWriter) (error : String) (code : Nat) : ResponseWriter :=
  let w := w.DelHeader "Content-Length"
  let w := w.SetHeader "Content-Type" "text/plain; charset=utf-8"
  let w := w.SetHeader "X-Content-Type-Options" "nosniff"
  let w := w.WriteHeader code
  (w.Write (error.toList ++ ['\n'])).1

/-! ## Library: decimal formatting -/

/-- The decimal digits of `n`, most significant first; `fuel` bounds the
number of digits and `n + 1` always suffices. -/
def decDigits : Nat → Nat → List Char
  | 0, _ => []
  | fuel + 1, n =>
    if n < 10 then [Nat.digitChar n] else decDigits fuel (n / 10) ++ [Nat.digitChar (n % 10)]

/-- Go `strconv.FormatUint(n, 10)`. -/
def formatUint (n : Nat) : List Char := decDigits (n + 1) n

/-- Go `strconv.AppendInt(b, x, 10)`, as `encoding/json` writes an `int`. -/
def formatInt (x : Int) : List Char :=
  if x < 0 then '-' :: formatUint x.natAbs else formatUint x.natAbs

/-- The helper `appendInt(b, x, width)` of package `time`: decimal, zero-padded
on the left to at least `width` digits, with a leading minus sign for a
negative `x`. -/
def appendInt (x : Int) (width : Nat) : List Char :=
  let ds := formatUint x.natAbs
  (if x < 0 then ['-'] else []) ++ List.replicate (width - ds.length) '0' ++ ds

/-- The value of a run of decimal digits. -/
def digitsVal (ds : List Char) : Nat := ds.foldl (fun acc c => acc * 10 + digitVal c) 0

/-! ## Library: `time.Time` as RFC 3339 -/

/-- Drop the trailing zeros of a digit run. -/
def trimZeros (ds : List Char) : List Char := (ds.reverse.dropWhile (fun c => c == '0')).reverse

/-- The fractional second as `appendFormatRFC3339` writes it with nanosecond
precision: nothing for zero, else a point and nine digits less their
trailing zeros. -/
def formatNano (nsec : Nat) : List Char :=
  if nsec = 0 then [] else '.' :: trimZeros (appendInt (nsec : Int) 9)

/-- The zone as `appendFormatRFC3339` writes it: `Z` for offset zero, else the
sign and `hh:mm` of the offset truncated to minutes. -/
def formatZone (offset : Int) : List Char :=
  if offset = 0 then ['Z']
  else
    let zone := Int.tdiv offset 60
    let sign := if zone < 0 then '-' else '+'
    let zone := if zone < 0 then -zone else zone
    sign :: (appendInt (zone / 60) 2 ++ ':' :: appendInt (zone % 60) 2)

/-- Go `Time.appendFormatRFC3339(b, true)`. -/
def Time.appendFormatRFC3339 (t : Time) : List Char :=
  appendInt t.year 4 ++ '-' :: appendInt t.month 2 ++ '-' :: appendInt t.day 2 ++
    'T' :: appendInt t.hour 2 ++ ':' :: appendInt t.minute 2 ++ ':' :: appendInt t.second 2 ++
    formatNano t.nsec ++ formatZone t.offset

/-- The two-digit number at the head of `b`, `10*(b[0]-48) + (b[1]-48)`. -/
def num2 (b : List Char) : Nat :=
  match b with
  | c0 :: c1 :: _ => 10 * digitVal c0 + digitVal c1
  | _ => 0

/-- Go `Time.appendStrictRFC3339`: the text of `appendFormatRFC3339`, refused when
the year is not four digits wide or the zone hour is not below 24. -/
def Time.appendStrictRFC3339 (t : Time) : Except Error (List Char) :=
  let b := t.appendFormatRFC3339
  if b.get? 4 ≠ some '-' then
    .error (.other "year outside of range [0,9999]")
  else if b.getLast? ≠ some 'Z' then
    let c := (b.get? (b.length - 6)).getD '0'
    if isDigit c ∨ num2 (b.drop (b.length - 5)) ≥ 24 then
      .error (.other "timezone hour outside of range [0,23]")
    else .ok b
  else .ok b

/-- Go `Time.MarshalJSON`: the strict RFC 3339 text between double quotes. -/
def Time.MarshalJSON (t : Time) : Except Error (List Char) :=
  match t.appendStrictRFC3339 with
  | .error e => .error (.other ("Time.MarshalJSON: " ++ e.text))
  | .ok b => .ok ('"' :: b ++ ['"'])

/-! ## Library: `encoding/json` for `Contrato` -/

/-- Go `json.Marshal(c)` for a `Contrato`: the three fields in declaration order
under their tags; it fails exactly when the time does. -/
def json.Marshal (c : Contrato) : Except Error (List Char) :=
  match c.FechaIngreso.MarshalJSON with
  | .error e => .error (.other ("json: error calling MarshalJSON for type time.Time: " ++ e.text))
  | .ok t =>
    .ok ("\x7b\"contrato_numero\":".toList ++ formatInt c.ContratoNumero ++
      ",\"cliente_id\":".toList ++ formatInt c.ClienteID ++
      ",\"fecha_ingreso\":".toList ++ t ++ "\x7d".toList)

/-- Go `json.NewEncoder(w).Encode(c)`: nothing is written when marshalling
fails, else the text and a newline are written in one `Write`, whose error is
returned. -/
def json.Encode (w : ResponseWriter) (c : Contrato) : ResponseWriter × Option Error :=
  match json.Marshal c with
  | .error e => (w, some e)
  | .ok b => w.Write (b ++ ['\n'])

/-! ## Library: reading the JSON back -/

/-- The slice `s[i:j]`. -/
def slice (s : List Char) (i j : Nat) : List Char := (s.drop i).take (j - i)

/-- The closure `parseUint(s, min, max)` of `time.parseRFC3339`: the value of a
run of digits, refused outside `[lo, hi]`. -/
def parseUintRange (s : List Char) (lo hi : Nat) : Option Nat :=
  if s.all isDigit then
    if digitsVal s < lo ∨ hi < digitsVal s then none else some (digitsVal s)
  else none

/-- Go `time.isLeap`. -/
def isLeap (year : Int) : Bool := year % 4 = 0 ∧ (year % 100 ≠ 0 ∨ year % 400 = 0)

/-- Go `time.daysIn(m, year)`. -/
def daysIn (m : Nat) (year : Int) : Nat :=
  if m = 2 then (if isLeap year then 29 else 28) else 30 + (m + m / 8) % 2

/-- Go `time.parseNanoseconds(value, nbytes)` on a point followed by digits: at
most nine digits are read, scaled to nanoseconds. -/
def parseNanoseconds (value : List Char) (nbytes : Nat) : Nat :=
  let nbytes := min nbytes 10
  digitsVal (slice value 1 nbytes) * 10 ^ (10 - nbytes)

/-- The length of the fractional second at the head of `s` in
`time.parseRFC3339`: a point followed by at least one digit, with the digits
that follow; zero when there is none. -/
def fracLength (s : List Char) : Nat :=
  if 2 ≤ s.length ∧ s.get? 0 = some '.' ∧ isDigit ((s.get? 1).getD ' ') = true then
    2 + ((s.drop 2).takeWhile isDigit).length
  else 0

/-- The zone suffix of `time.parseRFC3339`: `Z`, or a sign and `hh:mm`; the
result is the offset in seconds. -/
def parseZone (s : List Char) : Option Int :=
  if s = ['Z'] then some 0
  else if s.length ≠ 6 then none
  else
    match parseUintRange (slice s 1 3) 0 23, parseUintRange (slice s 4 6) 0 59 with
    | some hr, some mm =>
      if (s.get? 0 = some '-' ∨ s.get? 0 = some '+') ∧ s.get? 3 = some ':' then
        let zoneOffset : Int := ((hr * 60 + mm) * 60 : Nat)
        some (if s.get? 0 = some '-' then -zoneOffset else zoneOffset)
      else none
    | _, _ => none

/-- Go `time.parseRFC3339`: the civil reading of an RFC 3339 timestamp. -/
def parseRFC3339 (s : List Char) : Option Time :=
  if s.length < 19 then none
  else
    match parseUintRange (slice s 0 4) 0 9999, parseUintRange (slice s 5 7) 1 12,
      parseUintRange (slice s 11 13) 0 23, parseUintRange (slice s 14 16) 0 59,
      parseUintRange (slice s 17 19) 0 59 with
    | some year, some month, some hour, some minute, some second =>
      match parseUintRange (slice s 8 10) 1 (daysIn month year) with
      | none => none
      | some day =>
        if s.get? 4 = some '-' ∧ s.get? 7 = some '-' ∧ s.get? 10 = some 'T' ∧
            s.get? 13 = some ':' ∧ s.get? 16 = some ':' then
          let s1 := s.drop 19
          let n := fracLength s1
          let nsec := if n = 0 then 0 else parseNanoseconds s1 n
          match parseZone (s1.drop n) with
          | none => none
          | some offset =>
            some { year := year, month := month, day := day, hour := hour, minute := minute,
                   second := second, nsec := nsec, offset := offset }
        else none
    | _, _, _, _, _ => none

/-- Go `Time.UnmarshalJSON`: an RFC 3339 timestamp between double quotes. -/
def Time.UnmarshalJSON (s : List Char) : Option Time :=
  match s with
  | '"' :: rest =>
    if rest.getLast? = some '"' then parseRFC3339 rest.dropLast else none
  | _ => none

/-- Remove the prefix `p` from `s`. -/
def stripPrefix (p s : List Char) : Option (List Char) :=
  if p.isPrefixOf s then some (s.drop p.length) else none

/-- Read a JSON integer literal at the head of `s`: an optional minus sign and
a run of digits without a superfluous leading zero; returns the value and the
rest of the input. -/
def readInt (s : List Char) : Option (Int × List Char) :=
  let neg := s.head? = some '-'
  let s1 := if neg then s.drop 1 else s
  let ds := s1.takeWhile isDigit
  let rest := s1.dropWhile isDigit
  if ds = [] then none
  else if 1 < ds.length ∧ ds.head? = some '0' then none
  else some (if neg then -(digitsVal ds : Int) else (digitsVal ds : Int), rest)

/-- Is the value one a Go `int` (64 bits) can hold. -/
def inIntRange (x : Int) : Prop := -(2 : Int) ^ (intSize - 1) ≤ x ∧ x < (2 : Int) ^ (intSize - 1)

instance (x : Int) : Decidable (inIntRange x) := by unfold inIntRange; infer_instance

/-- Read a JSON integer literal into an `int` field: a literal whose value
overflows `int` is refused. -/
def readGoInt (s : List Char) : Option (Int × List Char) :=
  match readInt s with
  | none => none
  | some (v, rest) => if inIntRange v then some (v, rest) else none

/-- JSON white space. -/
def isSpace (c : Char) : Bool := c = ' ' ∨ c = '\t' ∨ c = '\r' ∨ c = '\n'

/-- Go `json.Unmarshal(body, &c)` for a `Contrato`, on the compact layout with the
keys in declaration order (the layout `json.Marshal` produces); other layouts
are refused here. -/
def json.Unmarshal (body : List Char) : Option Contrato :=
  match stripPrefix "\x7b\"contrato_numero\":".toList body with
  | none => none
  | some s =>
    match readGoInt s with
    | none => none
    | some (numero, s) =>
      match stripPrefix ",\"cliente_id\":".toList s with
      | none => none
      | some s =>
        match readGoInt s with
        | none => none
        | some (cliente, s) =>
          match stripPrefix ",\"fecha_ingreso\":".toList s with
          | none => none
          | some s =>
            let lit := s.takeWhile (fun c => c != '\x7d')
            let tail := s.dropWhile (fun c => c != '\x7d')
            match Time.UnmarshalJSON lit, tail with
            | some fecha, '\x7d' :: ws =>
              if ws.all isSpace then
                some { ContratoNumero := numero, ClienteID := cliente, FechaIngreso := fecha }
              else none
            | _, _ => none

/-- The civil reading is one a `time.Time` can have. -/
def Time.Valid (t : Time) : Prop :=
  1 ≤ t.month ∧ t.month ≤ 12 ∧ 1 ≤ t.day ∧ t.day ≤ daysIn t.month t.year ∧
    t.hour ≤ 23 ∧ t.minute ≤ 59 ∧ t.second ≤ 59 ∧ t.nsec < 10 ^ 9

/-- The time is one RFC 3339 can express: a year of four digits and a zone
offset of whole minutes, less than a day. -/
def Time.Expressible (t : Time) : Prop :=
  0 ≤ t.year ∧ t.year ≤ 9999 ∧ t.offset % 60 = 0 ∧ -86400 < t.offset ∧ t.offset < 86400

/-- The record is a value of the Go type: both integers fit an `int` and the
date is a valid civil reading. -/
def Contrato.WellFormed (c : Contrato) : Prop :=
  inIntRange c.ContratoNumero ∧ inIntRange c.ClienteID ∧ c.FechaIngreso.Valid

instance (t : Time) : Decidable t.Valid := by unfold Time.Valid; infer_instance

instance (t : Time) : Decidable t.Expressible := by unfold Time.Expressible; infer_instance

instance (c : Contrato) : Decidable c.WellFormed := by unfold Contrato.WellFormed; infer_instance

/-! ## Handler -/

/-- The part of an `*http.Request` the handler reads: the parsed query
(`r.URL.Query()`) and the request context (`r.Context()`). -/
structure Request where
  query : Values
  ctx : Context

/-- Source `type ContratoHandler struct`. -/
structure ContratoHandler where
  repo : ContratoRepository

/-- Source `func NewContratoHandler(repo ContratoRepository) *ContratoHandler`. -/
def NewContratoHandler (repo : ContratoRepository) : ContratoHandler := { repo := repo }

/-- The effects of one run of the handler: the response writer as the
handler leaves it, the lines passed to `log.Printf`, and the arguments of
every call of `repo.GetByID`, in order. -/
structure Effects where
  w : ResponseWriter
  logged : List String
  calls : List (Context × Int)
  deriving DecidableEq

/-- Source `func (h *ContratoHandler) GetContrato(w http.ResponseWriter, r *http.Request)`. -/
def ContratoHandler.GetContrato (h : ContratoHandler) (w : ResponseWriter) (r : Request) :
    Effects :=
  -- 1. input validation
  let idStr := r.query.Get "contrato_id"
  if idStr = "" then
    { w := http.Error w "El parámetro contrato_id es requerido" 400, logged := [], calls := [] }
  else
    match strconv.Atoi idStr with
    | .error _ =>
      { w := http.Error w "El contrato_id debe ser un número entero válido" 400,
        logged := [], calls := [] }
    | .ok id =>
      -- 2. repository call with the request context
      let res := h.repo.GetByID r.ctx id
      let calls := [(r.ctx, id)]
      match res.err with
      | some err =>
        { w := http.Error w "Error interno del servidor" 500,
          logged := ["Error en base de datos: " ++ err.text], calls := calls }
      | none =>
        match res.contrato with
        | none => { w := http.Error w "Contrato no encontrado" 404, logged := [], calls := calls }
        | some contrato =>
          -- 3. JSON response
          let w := w.SetHeader "Content-Type" "application/json"
          match json.Encode w contrato with
          | (w, some err) =>
            { w := w, logged := ["Error al codificar respuesta: " ++ err.text], calls := calls }
          | (w, none) => { w := w, logged := [], calls := calls }

/-! ## Process entry point -/

/-- The fields of the `http.Server` that `main` builds; timeouts in seconds,
the handler being the mux with the routes registered so far. -/
structure Server where
  Addr : String
  routes : List String
  ReadTimeout : Nat
  WriteTimeout : Nat
  IdleTimeout : Nat
  deriving DecidableEq, Repr

/-- The observable steps of `main`. -/
inductive Event where
  | sqlOpen (driver connString : String)
  | pingContext (ctx : Context)
  | logLine (msg : String)
  | listenAndServe (srv : Server)
  | signalNotify
  | shutdown (ctx : Context)
  | dbClose
  deriving DecidableEq, Repr

/-- What happens once the server goroutine runs, as the scheduler and the
outside world decide: `ListenAndServe` fails, or a signal arrives and
`Shutdown` returns, or neither ever happens. -/
inductive Serving where
  | serveFails (err : Error)
  | signalled (shutdownErr : Option Error)
  | forever
  deriving DecidableEq, Repr

/-- The world `main` runs in. -/
structure Env where
  Getenv : String → String
  sqlOpen : String → String → Option Error
  PingContext : Context → Option Error
  serving : Serving

/-- The steps `main` performed, in order, and the exit code of the process
(`none` when it never exits). -/
structure Run where
  events : List Event
  exit : Option Nat
  deriving DecidableEq, Repr

/-- The local `connString` of `main`: the `fmt.Sprintf` of the four
environment variables and the fixed database name. -/
def connString (env : Env) : String :=
  "server=" ++ env.Getenv "DB_HOST" ++ ";user id=" ++ env.Getenv "DB_USER" ++
    ";password=" ++ env.Getenv "DB_PASSWORD" ++ ";port=" ++ env.Getenv "DB_PORT" ++
    ";database=" ++ "dbFortalezaCore" ++ ";"

/-- Source `func main()`.  `log.Fatalf` logs and exits with code 1 without running
the deferred calls; returning from `main` runs them and exits with code 0. -/
def main (env : Env) : Run :=
  let connString := connString env
  let ev := [Event.sqlOpen "sqlserver" connString]
  match env.sqlOpen "sqlserver" connString with
  | some err =>
    { events := ev ++ [.logLine ("Error creando pool de conexión: " ++ err.text)], exit := some 1 }
  | none =>
    let ctx := Context.WithTimeout Context.Background 5
    let ev := ev ++ [.pingContext ctx]
    match env.PingContext ctx with
    | some err =>
      { events := ev ++ [.logLine ("No se pudo conectar a la base de datos: " ++ err.text)],
        exit := some 1 }
    | none =>
      let routes := ["GET /contrato"]
      let port := env.Getenv "PORT"
      let port := if port = "" then "8080" else port
      let srv : Server :=
        { Addr := ":" ++ port, routes := routes,
          ReadTimeout := 5, WriteTimeout := 10, IdleTimeout := 120 }
      let ev := ev ++ [.logLine ("Servidor iniciado en puerto " ++ port), .listenAndServe srv,
        .signalNotify]
      match env.serving with
      | .serveFails err =>
        if err ≠ Error.httpErrServerClosed then
          { events := ev ++ [.logLine ("Error en servidor: " ++ err.text)], exit := some 1 }
        else { events := ev, exit := none }
      | .forever => { events := ev, exit := none }
      | .signalled shutdownErr =>
        let ev := ev ++ [.logLine "Apagando servidor..."]
        let ctxShut := Context.WithTimeout Context.Background 5
        let ev := ev ++ [.shutdown ctxShut]
        match shutdownErr with
        | some err => { events := ev ++ [.logLine ("Forzando apagado:" ++ err.text)], exit := some 1 }
        | none =>
          { events := ev ++ [.logLine "Servidor apagado correctamente.", .dbClose], exit := some 0 }

/-! ## Fixtures -/

/-- January 15, 2023, midnight UTC. -/
def fecha20230115 : Time :=
  { year := 2023, month := 1, day := 15, hour := 0, minute := 0, second := 0, nsec := 0,
    offset := 0 }

/-- The record `(1001, 7, 2023-01-15T00:00:00Z)`. -/
def contrato1001 : Contrato :=
  { ContratoNumero := 1001, ClienteID := 7, FechaIngreso := fecha20230115 }

/-- A record dated in the year 10000. -/
def contratoY10K : Contrato :=
  { ContratoNumero := 1, ClienteID := 1, FechaIngreso := { fecha20230115 with year := 10000 } }

/-- A record dated in a zone thirty seconds east of UTC. -/
def contratoZone30s : Contrato :=
  { ContratoNumero := 2, ClienteID := 2, FechaIngreso := { fecha20230115 with offset := 30 } }

/-- A repository substitute: row 42 holds `contrato1001`, row 10000 holds
`contratoY10K`, row 30 holds `contratoZone30s`, looking up row 5 meets a
cancelled context, row 6 a connectivity error, and no other row exists. -/
def repoStub : ContratoRepository :=
  { GetByID := fun _ id =>
      if id = 42 then { contrato := some contrato1001, err := none }
      else if id = 10000 then { contrato := some contratoY10K, err := none }
      else if id = 30 then { contrato := some contratoZone30s, err := none }
      else if id = 5 then { contrato := none, err := some .contextCanceled }
      else if id = 6 then { contrato := none, err := some (.other "dial tcp: connection refused") }
      else { contrato := none, err := none } }

/-- The request `GET /contrato?contrato_id=<s>`. -/
def requestFor (s : String) : Request :=
  { query := [("contrato_id", [s])], ctx := { key := 1, timeout := none } }

/-- The request `GET /contrato`. -/
def requestBare : Request := { query := [], ctx := { key := 2, timeout := none } }

/-- A pool substitute: row 42 scans into `contrato1001`, row 7 is present but
a column does not convert, the context with key 9 is already cancelled, and
no other row exists. -/
def dbStub : DB :=
  { QueryRowScan := fun ctx _ args =>
      if ctx.key = 9 then { dest := Contrato.zero, err := some .contextCanceled }
      else if args = [42] then { dest := contrato1001, err := none }
      else if args = [7] then
        { dest := { Contrato.zero with ContratoNumero := 3 },
          err := some (.other "sql: Scan error on column index 1: converting NULL to int is unsupported") }
      else { dest := Contrato.zero, err := some .sqlErrNoRows } }

/-- A world where the pool opens, the probe answers as `ping` says, `PORT` is
as given, and a signal arrives with a clean shutdown. -/
def envStub (port : String) (ping : Option Error) : Env :=
  { Getenv := fun k => if k = "PORT" then port else if k = "DB_HOST" then "db" else "",
    sqlOpen := fun _ _ => none,
    PingContext := fun _ => ping,
    serving := .signalled none }

/-! ## Lemmas on the response writer -/

theorem lookup_filter_append_self (l : List (String × String)) (k v : String) :
    (l.filter (fun kv => kv.1 != k) ++ [(k, v)]).lookup k = some v := by
  induction l with
  | nil => simp [List.lookup]
  | cons a l ih =>
    by_cases hak : a.1 = k
    · simp [List.filter, hak, ih]
    · have hne : (a.1 != k) = true := by simpa using hak
      have hbeq : (k == a.1) = false := by
        simpa using (fun h : k = a.1 => hak h.symm)
      simp only [List.filter, hne, List.cons_append]
      rw [show a = (a.1, a.2) from rfl, List.lookup_cons, hbeq]
      exact ih

theorem lookup_filter_append_other (l : List (String × String)) (k k2 v : String)
    (hk : k ≠ k2) :
    (l.filter (fun kv => kv.1 != k2) ++ [(k2, v)]).lookup k = l.lookup k := by
  induction l with
  | nil =>
    have hbeq : (k == k2) = false := by simpa using hk
    simp [List.lookup, hbeq]
  | cons a l ih =>
    by_cases hak : a.1 = k2
    · have hbeq : (k == a.1) = false := by
        rw [hak]; simpa using hk
      rw [show a = (a.1, a.2) from rfl, List.lookup_cons, hbeq]
      simp [List.filter, hak, ih]
    · have hne : (a.1 != k2) = true := by simpa using hak
      simp only [List.filter, hne, List.cons_append]
      rw [show a = (a.1, a.2) from rfl, List.lookup_cons, List.lookup_cons]
      cases hka : (k == a.1) with
      | true => rfl
      | false => exact ih

theorem GetHeader_SetHeader_self (w : ResponseWriter) (k v : String) :
    (w.SetHeader k v).GetHeader k = v := by
  simp [ResponseWriter.GetHeader, ResponseWriter.SetHeader, lookup_filter_append_self]

theorem GetHeader_SetHeader_other (w : ResponseWriter) (k k2 v : String) (hk : k ≠ k2) :
    (w.SetHeader k2 v).GetHeader k = w.GetHeader k := by
  simp [ResponseWriter.GetHeader, ResponseWriter.SetHeader, lookup_filter_append_other _ _ _ _ hk]

/-- On a writer whose status is unwritten, `http.Error` fixes the status to
`code`, marks the body as plain text and appends the message and a newline. -/
theorem http_Error_spec (w : ResponseWriter) (msg : String) (code : Nat) (hw : w.code = none) :
    (http.Error w msg code).status = code ∧
    (http.Error w msg code).code = some code ∧
    (http.Error w msg code).GetHeader "Content-Type" = "text/plain; charset=utf-8" ∧
    (http.Error w msg code).body = w.body ++ (msg.toList ++ ['\n']) := by
  have hct : (http.Error w msg code).GetHeader "Content-Type" = "text/plain; charset=utf-8" := by
    simp only [http.Error, ResponseWriter.Write, ResponseWriter.WriteHeader,
      ResponseWriter.DelHeader]
    have h1 : ∀ w0 : ResponseWriter,
        ((w0.SetHeader "Content-Type" "text/plain; charset=utf-8").SetHeader
          "X-Content-Type-Options" "nosniff").GetHeader "Content-Type"
          = "text/plain; charset=utf-8" := by
      intro w0
      rw [GetHeader_SetHeader_other _ _ _ _ (by decide), GetHeader_SetHeader_self]
    have h2 := h1 { w with header := w.header.filter (fun kv => kv.1 != "Content-Length") }
    simpa [ResponseWriter.GetHeader, ResponseWriter.SetHeader, hw] using h2
  refine ⟨?_, ?_, hct, ?_⟩ <;>
    simp [http.Error, ResponseWriter.Write, ResponseWriter.WriteHeader, ResponseWriter.status,
      ResponseWriter.SetHeader, ResponseWriter.DelHeader, hw]

theorem Atoi_empty : strconv.Atoi "" = .error .ErrSyntax := by decide

theorem Atoi_ok_ne_empty {s : String} {n : Int} (h : strconv.Atoi s = .ok n) : s ≠ "" := by
  intro hs
  rw [hs, Atoi_empty] at h
  cases h

/-! ## The handler, case by case -/

/-- The handler on an empty or missing `contrato_id`. -/
theorem GetContrato_of_empty (h : ContratoHandler) (w : ResponseWriter) (r : Request)
    (he : r.query.Get "contrato_id" = "") :
    h.GetContrato w r =
      { w := http.Error w "El parámetro contrato_id es requerido" 400,
        logged := [], calls := [] } := by
  simp [ContratoHandler.GetContrato, he]

/-- The handler on a `contrato_id` that `strconv.Atoi` rejects. -/
theorem GetContrato_of_reject (h : ContratoHandler) (w : ResponseWriter) (r : Request)
    (hne : r.query.Get "contrato_id" ≠ "") (e : NumError)
    (he : strconv.Atoi (r.query.Get "contrato_id") = .error e) :
    h.GetContrato w r =
      { w := http.Error w "El contrato_id debe ser un número entero válido" 400,
        logged := [], calls := [] } := by
  simp [ContratoHandler.GetContrato, hne, he]

/-- The handler when the repository returns an error. -/
theorem GetContrato_of_err (h : ContratoHandler) (w : ResponseWriter) (r : Request) (n : Int)
    (hn : strconv.Atoi (r.query.Get "contrato_id") = .ok n) (err : Error)
    (herr : (h.repo.GetByID r.ctx n).err = some err) :
    h.GetContrato w r =
      { w := http.Error w "Error interno del servidor" 500,
        logged := ["Error en base de datos: " ++ err.text], calls := [(r.ctx, n)] } := by
  simp [ContratoHandler.GetContrato, Atoi_ok_ne_empty hn, hn, herr]

/-- The handler when the repository returns neither a record nor an error. -/
theorem GetContrato_of_absent (h : ContratoHandler) (w : ResponseWriter) (r : Request) (n : Int)
    (hn : strconv.Atoi (r.query.Get "contrato_id") = .ok n)
    (herr : (h.repo.GetByID r.ctx n).err = none)
    (hrec : (h.repo.GetByID r.ctx n).contrato = none) :
    h.GetContrato w r =
      { w := http.Error w "Contrato no encontrado" 404, logged := [], calls := [(r.ctx, n)] } := by
  simp [ContratoHandler.GetContrato, Atoi_ok_ne_empty hn, hn, herr, hrec]

/-- The handler when the repository returns a record that marshals to `b`. -/
theorem GetContrato_of_record (h : ContratoHandler) (w : ResponseWriter) (r : Request) (n : Int)
    (hn : strconv.Atoi (r.query.Get "contrato_id") = .ok n)
    (herr : (h.repo.GetByID r.ctx n).err = none) (c : Contrato)
    (hrec : (h.repo.GetByID r.ctx n).contrato = some c) (b : List Char)
    (hb : json.Marshal c = .ok b) :
    h.GetContrato w r =
      { w := ((w.SetHeader "Content-Type" "application/json").Write (b ++ ['\n'])).1,
        logged := (match w.writeErr with
          | some e => ["Error al codificar respuesta: " ++ e.text]
          | none => []),
        calls := [(r.ctx, n)] } := by
  have hwe : ((w.SetHeader "Content-Type" "application/json").Write (b ++ ['\n'])).2
      = w.writeErr := by
    simp only [ResponseWriter.Write, ResponseWriter.WriteHeader, ResponseWriter.SetHeader]
    cases w.code <;> rfl
  simp only [ContratoHandler.GetContrato, Atoi_ok_ne_empty hn, hn, herr, hrec, json.Encode, hb,
    if_false]
  generalize hW : (w.SetHeader "Content-Type" "application/json").Write (b ++ ['\n']) = W
    at hwe
  obtain ⟨W1, W2⟩ := W
  simp only at hwe
  rw [← hwe]
  cases W2 <;> rfl

/-- The handler when the repository returns a record that fails to marshal. -/
theorem GetContrato_of_unencodable (h : ContratoHandler) (w : ResponseWriter) (r : Request)
    (n : Int) (hn : strconv.Atoi (r.query.Get "contrato_id") = .ok n)
    (herr : (h.repo.GetByID r.ctx n).err = none) (c : Contrato)
    (hrec : (h.repo.GetByID r.ctx n).contrato = some c) (e : Error)
    (hb : json.Marshal c = .error e) :
    h.GetContrato w r =
      { w := w.SetHeader "Content-Type" "application/json",
        logged := ["Error al codificar respuesta: " ++ e.text], calls := [(r.ctx, n)] } := by
  simp [ContratoHandler.GetContrato, Atoi_ok_ne_empty hn, hn, herr, hrec, json.Encode, hb]


/-! ## Properties of the handler

The server hands the handler a writer on which no status has been written
yet; the statements carry this as `w.code = none`. -/

/-- C1: when the `contrato_id` query parameter is absent, or `strconv.Atoi`
rejects its value, the response status is 400 and `GetByID` is not called. -/
theorem C1_bad_input_is_400_without_storage_call (h : ContratoHandler) (w : ResponseWriter)
    (r : Request) (hw : w.code = none)
    (hbad : r.query.lookup "contrato_id" = none ∨
      ∃ e, strconv.Atoi (r.query.Get "contrato_id") = .error e) :
    (h.GetContrato w r).w.status = 400 ∧ (h.GetContrato w r).calls = [] := by
  by_cases he : r.query.Get "contrato_id" = ""
  · rw [GetContrato_of_empty h w r he]
    exact ⟨(http_Error_spec w _ 400 hw).1, rfl⟩
  · rcases hbad with habs | ⟨e, hrej⟩
    · exact absurd (by simp [Values.Get, habs]) he
    · rw [GetContrato_of_reject h w r he e hrej]
      exact ⟨(http_Error_spec w _ 400 hw).1, rfl⟩

theorem C1_witness :
    (((NewContratoHandler repoStub).GetContrato ResponseWriter.fresh (requestFor "abc")).w.status
        = 400 ∧
      ((NewContratoHandler repoStub).GetContrato ResponseWriter.fresh (requestFor "abc")).calls
        = []) ∧
    (((NewContratoHandler repoStub).GetContrato ResponseWriter.fresh requestBare).w.status
        = 400 ∧
      ((NewContratoHandler repoStub).GetContrato ResponseWriter.fresh requestBare).calls
        = []) :=
  ⟨C1_bad_input_is_400_without_storage_call (NewContratoHandler repoStub) ResponseWriter.fresh
      (requestFor "abc") rfl (Or.inr ⟨NumError.ErrSyntax, by decide⟩),
    C1_bad_input_is_400_without_storage_call (NewContratoHandler repoStub) ResponseWriter.fresh
      requestBare rfl (Or.inl rfl)⟩

/-- C3: for a valid integer `contrato_id` for which the repository returns
neither a record nor an error, the response has status 404 and a non-empty
plain-text body, the line `Contrato no encontrado`. -/
theorem C3_absent_is_404 (h : ContratoHandler) (w : ResponseWriter) (r : Request) (n : Int)
    (hw : w.code = none)
    (hn : strconv.Atoi (r.query.Get "contrato_id") = .ok n)
    (hres : h.repo.GetByID r.ctx n = { contrato := none, err := none }) :
    (h.GetContrato w r).w.status = 404 ∧
      (h.GetContrato w r).w.GetHeader "Content-Type" = "text/plain; charset=utf-8" ∧
      (h.GetContrato w r).w.body = w.body ++ "Contrato no encontrado\n".toList ∧
      (h.GetContrato w r).w.body ≠ [] := by
  rw [GetContrato_of_absent h w r n hn (by rw [hres]) (by rw [hres])]
  obtain ⟨h1, -, h3, h4⟩ := http_Error_spec w "Contrato no encontrado" 404 hw
  refine ⟨h1, h3, ?_, ?_⟩
  · rw [h4]; rfl
  · rw [h4]; simp

theorem C3_witness :
    ((NewContratoHandler repoStub).GetContrato ResponseWriter.fresh
        (requestFor "999999")).w.status = 404 ∧
      ((NewContratoHandler repoStub).GetContrato ResponseWriter.fresh
        (requestFor "999999")).w.GetHeader "Content-Type" = "text/plain; charset=utf-8" ∧
      ((NewContratoHandler repoStub).GetContrato ResponseWriter.fresh
        (requestFor "999999")).w.body
        = ResponseWriter.fresh.body ++ "Contrato no encontrado\n".toList ∧
      ((NewContratoHandler repoStub).GetContrato ResponseWriter.fresh
        (requestFor "999999")).w.body ≠ [] :=
  C3_absent_is_404 (NewContratoHandler repoStub) ResponseWriter.fresh (requestFor "999999")
    999999 rfl (by decide) (by decide)

/-- C4: whenever the repository returns an error the response has status 500,
and the response writer (status, headers, body) is left the same whatever the
error is, whatever record accompanies it and whatever the identifier was: it
carries the fixed line `Error interno del servidor` only. -/
theorem C4_failure_is_opaque_500 (h1 h2 : ContratoHandler) (w : ResponseWriter)
    (r1 r2 : Request) (n1 n2 : Int) (e1 e2 : Error) (hw : w.code = none)
    (hn1 : strconv.Atoi (r1.query.Get "contrato_id") = .ok n1)
    (hn2 : strconv.Atoi (r2.query.Get "contrato_id") = .ok n2)
    (he1 : (h1.repo.GetByID r1.ctx n1).err = some e1)
    (he2 : (h2.repo.GetByID r2.ctx n2).err = some e2) :
    (h1.GetContrato w r1).w.status = 500 ∧
      (h1.GetContrato w r1).w = (h2.GetContrato w r2).w ∧
      (h1.GetContrato w r1).w.body = w.body ++ "Error interno del servidor\n".toList := by
  rw [GetContrato_of_err h1 w r1 n1 hn1 e1 he1, GetContrato_of_err h2 w r2 n2 hn2 e2 he2]
  obtain ⟨h1, -, -, h4⟩ := http_Error_spec w "Error interno del servidor" 500 hw
  refine ⟨h1, rfl, ?_⟩
  rw [h4]; rfl

theorem C4_witness :
    ((NewContratoHandler repoStub).GetContrato ResponseWriter.fresh (requestFor "5")).w.status
        = 500 ∧
      ((NewContratoHandler repoStub).GetContrato ResponseWriter.fresh (requestFor "5")).w
        = ((NewContratoHandler repoStub).GetContrato ResponseWriter.fresh (requestFor "6")).w ∧
      ((NewContratoHandler repoStub).GetContrato ResponseWriter.fresh (requestFor "5")).w.body
        = ResponseWriter.fresh.body ++ "Error interno del servidor\n".toList :=
  C4_failure_is_opaque_500 (NewContratoHandler repoStub) (NewContratoHandler repoStub)
    ResponseWriter.fresh (requestFor "5") (requestFor "6") 5 6 Error.contextCanceled
    (Error.other "dial tcp: connection refused") rfl (by decide) (by decide) (by decide)
    (by decide)

/-- C7 (as stated, refuted): looking up row 5 the repository substitute returns
the cancellation error of the context, and the handler writes the line
`Error interno del servidor` as the response body. -/
theorem C7_counterexample :
    strconv.Atoi ((requestFor "5").query.Get "contrato_id") = .ok 5 ∧
      repoStub.GetByID (requestFor "5").ctx 5
        = { contrato := none, err := some Error.contextCanceled } ∧
      ((NewContratoHandler repoStub).GetContrato ResponseWriter.fresh (requestFor "5")).w.body
        = "Error interno del servidor\n".toList ∧
      ((NewContratoHandler repoStub).GetContrato ResponseWriter.fresh (requestFor "5")).w.body
        ≠ [] := by
  decide

/-- C7 (amended): when `GetByID` returns the cancellation error of the context,
the handler treats it as any other failure: it logs it and writes status 500
with the line `Error interno del servidor` as body to the response writer. -/
theorem C7_cancelled_lookup_is_500 (h : ContratoHandler) (w : ResponseWriter) (r : Request)
    (n : Int) (hw : w.code = none)
    (hn : strconv.Atoi (r.query.Get "contrato_id") = .ok n)
    (hc : (h.repo.GetByID r.ctx n).err = some Error.contextCanceled) :
    (h.GetContrato w r).w.status = 500 ∧
      (h.GetContrato w r).w.body = w.body ++ "Error interno del servidor\n".toList ∧
      (h.GetContrato w r).logged = ["Error en base de datos: context canceled"] := by
  rw [GetContrato_of_err h w r n hn _ hc]
  obtain ⟨h1, -, -, h4⟩ := http_Error_spec w "Error interno del servidor" 500 hw
  refine ⟨h1, ?_, rfl⟩
  rw [h4]; rfl

theorem C7_witness :
    ((NewContratoHandler repoStub).GetContrato ResponseWriter.fresh (requestFor "5")).w.status
        = 500 ∧
      ((NewContratoHandler repoStub).GetContrato ResponseWriter.fresh (requestFor "5")).w.body
        = ResponseWriter.fresh.body ++ "Error interno del servidor\n".toList ∧
      ((NewContratoHandler repoStub).GetContrato ResponseWriter.fresh (requestFor "5")).logged
        = ["Error en base de datos: context canceled"] :=
  C7_cancelled_lookup_is_500 (NewContratoHandler repoStub) ResponseWriter.fresh (requestFor "5")
    5 rfl (by decide) (by decide)

/-- C6 (as stated, refuted): row 10000 holds a record dated in the year 10000,
which the JSON encoder refuses; the handler writes nothing, so the response
has status 200 and an empty body, not status 500.  On a connection the client
has closed, encoding row 42 fails in the write; status 200 and the JSON text
were handed to the writer before the failure, and no status 500 follows. -/
theorem C6_counterexample :
    (strconv.Atoi ((requestFor "10000").query.Get "contrato_id") = .ok 10000 ∧
      repoStub.GetByID (requestFor "10000").ctx 10000
        = { contrato := some contratoY10K, err := none } ∧
      (json.Encode (ResponseWriter.fresh.SetHeader "Content-Type" "application/json")
        contratoY10K).2 = some (Error.other
        "json: error calling MarshalJSON for type time.Time: Time.MarshalJSON: year outside of range [0,9999]") ∧
      ((NewContratoHandler repoStub).GetContrato ResponseWriter.fresh
        (requestFor "10000")).w.status = 200 ∧
      ((NewContratoHandler repoStub).GetContrato ResponseWriter.fresh
        (requestFor "10000")).w.status ≠ 500 ∧
      ((NewContratoHandler repoStub).GetContrato ResponseWriter.fresh
        (requestFor "10000")).w.body = []) ∧
    (strconv.Atoi ((requestFor "42").query.Get "contrato_id") = .ok 42 ∧
      repoStub.GetByID (requestFor "42").ctx 42
        = { contrato := some contrato1001, err := none } ∧
      (json.Encode (ResponseWriter.broken.SetHeader "Content-Type" "application/json")
        contrato1001).2 = some (Error.other "write tcp 127.0.0.1:8080: write: broken pipe") ∧
      ((NewContratoHandler repoStub).GetContrato ResponseWriter.broken
        (requestFor "42")).w.status = 200 ∧
      ((NewContratoHandler repoStub).GetContrato ResponseWriter.broken
        (requestFor "42")).w.status ≠ 500 ∧
      ((NewContratoHandler repoStub).GetContrato ResponseWriter.broken
        (requestFor "42")).w.GetHeader "Content-Type" = "application/json") := by
  decide

/-- C6 (amended): when the repository returns a record and encoding it to JSON
fails, the handler only logs the failure and writes no error response: the
response writer is left as the encoder left it, with content type
`application/json` and status 200.  Either marshalling failed, and then no
status and no body were written; or the write failed, and then status 200 and
the JSON text had been handed to the writer. -/
theorem C6_encoding_failure_is_logged_only (h : ContratoHandler) (w : ResponseWriter)
    (r : Request) (n : Int) (c : Contrato) (e : Error) (hw : w.code = none)
    (hn : strconv.Atoi (r.query.Get "contrato_id") = .ok n)
    (hres : h.repo.GetByID r.ctx n = { contrato := some c, err := none })
    (hfail : (json.Encode (w.SetHeader "Content-Type" "application/json") c).2 = some e) :
    (h.GetContrato w r).w.status = 200 ∧
      (h.GetContrato w r).w.GetHeader "Content-Type" = "application/json" ∧
      (h.GetContrato w r).logged = ["Error al codificar respuesta: " ++ e.text] ∧
      (h.GetContrato w r).w = (json.Encode (w.SetHeader "Content-Type" "application/json") c).1 ∧
      ((json.Marshal c = .error e ∧ (h.GetContrato w r).w.code = none ∧
          (h.GetContrato w r).w.body = w.body) ∨
        ∃ b, json.Marshal c = .ok b ∧ w.writeErr = some e ∧
          (h.GetContrato w r).w.code = some 200 ∧
          (h.GetContrato w r).w.body = w.body ++ (b ++ ['\n'])) := by
  have hct := GetHeader_SetHeader_self w "Content-Type" "application/json"
  cases hmc : json.Marshal c with
  | error e2 =>
    have he : e2 = e := by
      simp only [json.Encode, hmc, Option.some.injEq] at hfail
      exact hfail
    subst he
    rw [GetContrato_of_unencodable h w r n hn (by rw [hres]) c (by rw [hres]) e2 hmc]
    refine ⟨?_, hct, rfl, ?_, Or.inl ⟨rfl, ?_, rfl⟩⟩
    · simp [ResponseWriter.status, ResponseWriter.SetHeader, hw]
    · simp [json.Encode, hmc]
    · simp [ResponseWriter.SetHeader, hw]
  | ok b =>
    have hwe : w.writeErr = some e := by
      simp only [json.Encode, hmc, ResponseWriter.Write, ResponseWriter.WriteHeader,
        ResponseWriter.SetHeader, hw] at hfail
      exact hfail
    rw [GetContrato_of_record h w r n hn (by rw [hres]) c (by rw [hres]) b hmc]
    refine ⟨?_, ?_, ?_, ?_, Or.inr ⟨b, rfl, hwe, ?_, ?_⟩⟩
    · simp [ResponseWriter.status, ResponseWriter.Write, ResponseWriter.WriteHeader,
        ResponseWriter.SetHeader, hw]
    · simpa [ResponseWriter.Write, ResponseWriter.WriteHeader, ResponseWriter.GetHeader,
        ResponseWriter.SetHeader, hw] using hct
    · simp [hwe]
    · simp [json.Encode, hmc]
    · simp [ResponseWriter.Write, ResponseWriter.WriteHeader, ResponseWriter.SetHeader, hw]
    · simp [ResponseWriter.Write, ResponseWriter.WriteHeader, ResponseWriter.SetHeader, hw]

theorem C6_witness :
    (((NewContratoHandler repoStub).GetContrato ResponseWriter.fresh
        (requestFor "10000")).w.status = 200 ∧
      ((NewContratoHandler repoStub).GetContrato ResponseWriter.fresh
        (requestFor "10000")).w.GetHeader "Content-Type" = "application/json" ∧
      ((NewContratoHandler repoStub).GetContrato ResponseWriter.fresh
        (requestFor "10000")).logged = ["Error al codificar respuesta: " ++ (Error.other
        "json: error calling MarshalJSON for type time.Time: Time.MarshalJSON: year outside of range [0,9999]").text]) ∧
    (((NewContratoHandler repoStub).GetContrato ResponseWriter.broken
        (requestFor "42")).w.status = 200 ∧
      ((NewContratoHandler repoStub).GetContrato ResponseWriter.broken
        (requestFor "42")).w.GetHeader "Content-Type" = "application/json" ∧
      ((NewContratoHandler repoStub).GetContrato ResponseWriter.broken
        (requestFor "42")).logged = ["Error al codificar respuesta: " ++ (Error.other
        "write tcp 127.0.0.1:8080: write: broken pipe").text]) :=
  have k1 := C6_encoding_failure_is_logged_only (NewContratoHandler repoStub)
    ResponseWriter.fresh (requestFor "10000") 10000 contratoY10K _ rfl (by decide) (by decide)
    (by decide)
  have k2 := C6_encoding_failure_is_logged_only (NewContratoHandler repoStub)
    ResponseWriter.broken (requestFor "42") 42 contrato1001 _ rfl (by decide) (by decide)
    (by decide)
  ⟨⟨k1.1, k1.2.1, k1.2.2.1⟩, ⟨k2.1, k2.2.1, k2.2.2.1⟩⟩

/-- C10: when `contrato_id` parses to the integer `n`, the handler calls
`GetByID` exactly once, with the context of the request and `n`; the status is
500 when that call returned an error (with or without a record), else 404
when it returned no record, else 200; and the response writer is left the
same by any other handler and request whose call returned the same result. -/
theorem C10_single_lookup_decides_response (h : ContratoHandler) (w : ResponseWriter)
    (r : Request) (n : Int) (hw : w.code = none)
    (hn : strconv.Atoi (r.query.Get "contrato_id") = .ok n) :
    (h.GetContrato w r).calls = [(r.ctx, n)] ∧
      (h.GetContrato w r).w.status =
        (if (h.repo.GetByID r.ctx n).err ≠ none then 500
         else if (h.repo.GetByID r.ctx n).contrato = none then 404 else 200) ∧
      ∀ (h2 : ContratoHandler) (r2 : Request) (n2 : Int),
        strconv.Atoi (r2.query.Get "contrato_id") = .ok n2 →
        h2.repo.GetByID r2.ctx n2 = h.repo.GetByID r.ctx n →
        (h2.GetContrato w r2).w = (h.GetContrato w r).w := by
  refine ⟨?_, ?_, ?_⟩
  · cases herr : (h.repo.GetByID r.ctx n).err with
    | some err => rw [GetContrato_of_err h w r n hn err herr]
    | none =>
      cases hrec : (h.repo.GetByID r.ctx n).contrato with
      | none => rw [GetContrato_of_absent h w r n hn herr hrec]
      | some c =>
        cases hb : json.Marshal c with
        | error e => rw [GetContrato_of_unencodable h w r n hn herr c hrec e hb]
        | ok b => rw [GetContrato_of_record h w r n hn herr c hrec b hb]
  · cases herr : (h.repo.GetByID r.ctx n).err with
    | some err =>
      rw [GetContrato_of_err h w r n hn err herr]
      simpa using (http_Error_spec w _ 500 hw).1
    | none =>
      cases hrec : (h.repo.GetByID r.ctx n).contrato with
      | none =>
        rw [GetContrato_of_absent h w r n hn herr hrec]
        simpa using (http_Error_spec w _ 404 hw).1
      | some c =>
        cases hb : json.Marshal c with
        | error e =>
          rw [GetContrato_of_unencodable h w r n hn herr c hrec e hb]
          simp [ResponseWriter.status, ResponseWriter.SetHeader, hw]
        | ok b =>
          rw [GetContrato_of_record h w r n hn herr c hrec b hb]
          simp [ResponseWriter.status, ResponseWriter.SetHeader, ResponseWriter.Write,
            ResponseWriter.WriteHeader, hw]
  · intro h2 r2 n2 hn2 hsame
    have hne : r.query.Get "contrato_id" ≠ "" := Atoi_ok_ne_empty hn
    have hne2 : r2.query.Get "contrato_id" ≠ "" := Atoi_ok_ne_empty hn2
    simp only [ContratoHandler.GetContrato, hne, hne2, hn, hn2, hsame, if_false]
    cases (h.repo.GetByID r.ctx n).err with
    | some err => rfl
    | none =>
      cases (h.repo.GetByID r.ctx n).contrato with
      | none => rfl
      | some c =>
        simp only [json.Encode]
        cases json.Marshal c with
        | error e => rfl
        | ok b =>
          simp only []
          generalize (w.SetHeader "Content-Type" "application/json").Write (b ++ ['\n']) = W
          obtain ⟨W1, W2⟩ := W
          cases W2 <;> rfl

theorem C10_witness :
    ((NewContratoHandler repoStub).GetContrato ResponseWriter.fresh (requestFor "42")).calls
        = [((requestFor "42").ctx, 42)] ∧
      ((NewContratoHandler repoStub).GetContrato ResponseWriter.fresh (requestFor "42")).w.status
        = 200 ∧
      ((NewContratoHandler repoStub).GetContrato ResponseWriter.fresh (requestFor "+42")).w
        = ((NewContratoHandler repoStub).GetContrato ResponseWriter.fresh (requestFor "42")).w :=
  have key := C10_single_lookup_decides_response (NewContratoHandler repoStub)
    ResponseWriter.fresh (requestFor "42") 42 rfl (by decide)
  ⟨key.1, key.2.1.trans (by decide),
    key.2.2 (NewContratoHandler repoStub) (requestFor "+42") 42 (by decide) (by decide)⟩

/-! ## Properties of the repository -/

/-- C5: `sqlServerRepository.GetByID` has three outcomes, fixed by the error of
the scan: no error gives the scanned record and no error; `sql.ErrNoRows`
gives neither record nor error; any other error (a failed query, a column
that does not convert) gives no record and that error.  A record and an
error are never returned together. -/
theorem C5_GetByID_three_outcomes (r : sqlServerRepository) (ctx : Context) (id : Int) :
    ((r.db.QueryRowScan ctx sqlServerRepository.query [id]).err = none →
        r.GetByID ctx id =
          { contrato := some (r.db.QueryRowScan ctx sqlServerRepository.query [id]).dest,
            err := none }) ∧
      ((r.db.QueryRowScan ctx sqlServerRepository.query [id]).err = some Error.sqlErrNoRows →
        r.GetByID ctx id = { contrato := none, err := none }) ∧
      (∀ e, e ≠ Error.sqlErrNoRows →
        (r.db.QueryRowScan ctx sqlServerRepository.query [id]).err = some e →
        r.GetByID ctx id = { contrato := none, err := some e }) ∧
      ¬ ((r.GetByID ctx id).contrato ≠ none ∧ (r.GetByID ctx id).err ≠ none) := by
  cases hs : (r.db.QueryRowScan ctx sqlServerRepository.query [id]).err with
  | none => simp [sqlServerRepository.GetByID, hs]
  | some e =>
    by_cases he : e = Error.sqlErrNoRows
    · subst he
      simp only [sqlServerRepository.GetByID, hs]
      refine ⟨by simp, by simp, ?_, by simp⟩
      intro e2 hne h2
      exact absurd (Option.some.inj h2).symm hne
    · refine ⟨by simp, ?_, ?_, ?_⟩
      · intro h; exact absurd (Option.some.inj h) he
      · intro e2 _ h2
        obtain rfl := Option.some.inj h2
        simp [sqlServerRepository.GetByID, hs, he]
      · simp [sqlServerRepository.GetByID, hs, he]

theorem C5_witness :
    (NewContratoRepository dbStub).GetByID Context.Background 42
        = { contrato := some contrato1001, err := none } ∧
      (NewContratoRepository dbStub).GetByID Context.Background 43
        = { contrato := none, err := none } ∧
      (NewContratoRepository dbStub).GetByID Context.Background 7
        = { contrato := none,
            err := some (Error.other
              "sql: Scan error on column index 1: converting NULL to int is unsupported") } :=
  have key42 := C5_GetByID_three_outcomes { db := dbStub } Context.Background 42
  have key43 := C5_GetByID_three_outcomes { db := dbStub } Context.Background 43
  have key7 := C5_GetByID_three_outcomes { db := dbStub } Context.Background 7
  ⟨key42.1 (by decide), key43.2.1 (by decide), key7.2.2.1 _ (by decide) (by decide)⟩

/-! ## Properties of the process -/

/-- C8: when `sql.Open` fails, or the connectivity probe made under the
five-second context fails, `main` exits with code 1 and `ListenAndServe` is
not among the steps it performed. -/
theorem C8_failed_startup_never_serves (env : Env)
    (hfail : (∃ e, env.sqlOpen "sqlserver" (connString env) = some e) ∨
      ∃ e, env.PingContext (Context.WithTimeout Context.Background 5) = some e) :
    (main env).exit = some 1 ∧ ∀ srv, Event.listenAndServe srv ∉ (main env).events := by
  cases hopen : env.sqlOpen "sqlserver" (connString env) with
  | some e => simp [main, hopen]
  | none =>
    rcases hfail with ⟨e, he⟩ | ⟨e, he⟩
    · rw [hopen] at he; cases he
    · simp [main, hopen, he]

theorem C8_witness :
    (main (envStub "8080" (some Error.contextDeadlineExceeded))).exit = some 1 ∧
      ∀ srv, Event.listenAndServe srv ∉
        (main (envStub "8080" (some Error.contextDeadlineExceeded))).events :=
  C8_failed_startup_never_serves (envStub "8080" (some Error.contextDeadlineExceeded))
    (Or.inr ⟨Error.contextDeadlineExceeded, rfl⟩)

/-- C9: when start-up succeeds, `main` calls `ListenAndServe` on exactly one
server, whose address is a colon followed by the value of `PORT` when that
value is not empty, and `:8080` when `PORT` is unset (empty). -/
theorem C9_listen_address (env : Env)
    (hopen : env.sqlOpen "sqlserver" (connString env) = none)
    (hping : env.PingContext (Context.WithTimeout Context.Background 5) = none) :
    ∃ srv, Event.listenAndServe srv ∈ (main env).events ∧
      (∀ srv2, Event.listenAndServe srv2 ∈ (main env).events → srv2 = srv) ∧
      (env.Getenv "PORT" = "" → srv.Addr = ":8080") ∧
      (env.Getenv "PORT" ≠ "" → srv.Addr = ":" ++ env.Getenv "PORT") := by
  refine ⟨{ Addr := ":" ++ (if env.Getenv "PORT" = "" then "8080" else env.Getenv "PORT"),
            routes := ["GET /contrato"], ReadTimeout := 5, WriteTimeout := 10,
            IdleTimeout := 120 }, ?_, ?_, ?_, ?_⟩
  · cases hs : env.serving with
    | serveFails err =>
      by_cases he : err = Error.httpErrServerClosed <;> simp [main, hopen, hping, hs, he]
    | forever => simp [main, hopen, hping, hs]
    | signalled sd => cases sd <;> simp [main, hopen, hping, hs]
  · intro srv2
    cases hs : env.serving with
    | serveFails err =>
      by_cases he : err = Error.httpErrServerClosed <;> simp [main, hopen, hping, hs, he]
    | forever => simp [main, hopen, hping, hs]
    | signalled sd => cases sd <;> simp [main, hopen, hping, hs]
  · intro hp; simp [hp]
  · intro hp; simp [hp]

theorem C9_witness :
    ∃ srv, Event.listenAndServe srv ∈ (main (envStub "9090" none)).events ∧
      (∀ srv2, Event.listenAndServe srv2 ∈ (main (envStub "9090" none)).events → srv2 = srv) ∧
      ((envStub "9090" none).Getenv "PORT" = "" → srv.Addr = ":8080") ∧
      ((envStub "9090" none).Getenv "PORT" ≠ "" →
        srv.Addr = ":" ++ (envStub "9090" none).Getenv "PORT") :=
  C9_listen_address (envStub "9090" none) rfl rfl

/-! ## Decimal text: formatting and reading back -/

theorem digitChar_isDigit {d : Nat} (h : d < 10) : isDigit (Nat.digitChar d) = true := by
  interval_cases d <;> decide

theorem digitChar_val {d : Nat} (h : d < 10) : digitVal (Nat.digitChar d) = d := by
  interval_cases d <;> decide

theorem digitChar_eq_zero {d : Nat} (h : d < 10) (h0 : Nat.digitChar d = '0') : d = 0 := by
  interval_cases d <;> first | rfl | (revert h0; decide)

theorem decDigits_fuel (f1 : Nat) : ∀ (f2 n : Nat), n < f1 → n < f2 →
    decDigits f1 n = decDigits f2 n := by
  induction f1 with
  | zero => intro f2 n h1; omega
  | succ f1 ih =>
    intro f2 n h1 h2
    cases f2 with
    | zero => omega
    | succ f2 =>
      simp only [decDigits]
      split
      · rfl
      · rw [ih f2 (n / 10) (by omega) (by omega)]

theorem formatUint_lt {n : Nat} (h : n < 10) : formatUint n = [Nat.digitChar n] := by
  simp [formatUint, decDigits, h]

theorem formatUint_ge {n : Nat} (h : 10 ≤ n) :
    formatUint n = formatUint (n / 10) ++ [Nat.digitChar (n % 10)] := by
  unfold formatUint
  rw [decDigits, if_neg (by omega)]
  rw [decDigits_fuel n (n / 10 + 1) (n / 10) (by omega) (by omega)]

theorem digitsVal_append (ds es : List Char) :
    digitsVal (ds ++ es) = es.foldl (fun acc c => acc * 10 + digitVal c) (digitsVal ds) := by
  simp [digitsVal, List.foldl_append]

theorem digitsVal_snoc (ds : List Char) (c : Char) :
    digitsVal (ds ++ [c]) = digitsVal ds * 10 + digitVal c := by
  simp [digitsVal_append]

theorem foldl_zeros (k a : Nat) :
    (List.replicate k '0').foldl (fun acc c => acc * 10 + digitVal c) a = a * 10 ^ k := by
  induction k generalizing a with
  | zero => simp
  | succ k ih =>
    rw [List.replicate_succ, List.foldl_cons, ih]
    have h0 : digitVal '0' = 0 := by decide
    rw [h0, pow_succ]; ring

theorem digitsVal_zeros_append (k : Nat) (ds : List Char) :
    digitsVal (List.replicate k '0' ++ ds) = digitsVal ds := by
  rw [digitsVal_append]
  have hz : digitsVal (List.replicate k '0') = 0 := by
    unfold digitsVal; rw [foldl_zeros]; simp
  rw [hz]; rfl

theorem digitsVal_append_zeros (ds : List Char) (k : Nat) :
    digitsVal (ds ++ List.replicate k '0') = digitsVal ds * 10 ^ k := by
  rw [digitsVal_append, foldl_zeros]

/-- The decimal text of `n`: digits only, never empty, of value `n`, and with
a leading zero only for `n = 0`. -/
theorem formatUint_spec (n : Nat) :
    (∀ c ∈ formatUint n, isDigit c = true) ∧ digitsVal (formatUint n) = n ∧
      formatUint n ≠ [] ∧ ((formatUint n).head? = some '0' → n = 0) := by
  induction n using Nat.strong_induction_on with
  | _ n ih =>
    by_cases h : n < 10
    · rw [formatUint_lt h]
      refine ⟨?_, ?_, by simp, ?_⟩
      · intro c hc
        rw [List.mem_singleton] at hc
        rw [hc]; exact digitChar_isDigit h
      · simp [digitsVal, digitChar_val h]
      · intro h0
        simp only [List.head?_cons, Option.some.injEq] at h0
        exact digitChar_eq_zero h h0
    · have hge : 10 ≤ n := by omega
      obtain ⟨i1, i2, i3, i4⟩ := ih (n / 10) (by omega)
      rw [formatUint_ge hge]
      refine ⟨?_, ?_, by simp, ?_⟩
      · intro c hc
        rw [List.mem_append, List.mem_singleton] at hc
        rcases hc with hc | hc
        · exact i1 c hc
        · rw [hc]; exact digitChar_isDigit (Nat.mod_lt _ (by omega))
      · rw [digitsVal_snoc, i2, digitChar_val (Nat.mod_lt _ (by omega))]
        omega
      · intro h0
        rw [List.head?_append_of_ne_nil _ i3] at h0
        have := i4 h0
        omega

theorem formatUint_length (w : Nat) : ∀ n : Nat, 1 ≤ w → n < 10 ^ w →
    (formatUint n).length ≤ w := by
  induction w with
  | zero => intro n h; omega
  | succ w ih =>
    intro n _ hn
    by_cases h : n < 10
    · rw [formatUint_lt h]; simp
    · have hge : 10 ≤ n := by omega
      have hw : 1 ≤ w := by
        rcases Nat.eq_zero_or_pos w with h0 | h0
        · subst h0; simp at hn; omega
        · exact h0
      have hdiv : n / 10 < 10 ^ w := by
        rw [pow_succ] at hn
        exact Nat.div_lt_of_lt_mul (by rw [Nat.mul_comm]; exact hn)
      rw [formatUint_ge hge, List.length_append]
      have := ih (n / 10) hw hdiv
      simp; omega

/-- A field of fixed width: `appendInt` of a natural number below `10 ^ w`
gives exactly `w` digits of that value. -/
theorem appendInt_field (n w : Nat) (hw : 1 ≤ w) (hn : n < 10 ^ w) :
    (appendInt (n : Int) w).length = w ∧ (∀ c ∈ appendInt (n : Int) w, isDigit c = true) ∧
      digitsVal (appendInt (n : Int) w) = n := by
  have hlen := formatUint_length w n hw hn
  obtain ⟨i1, i2, -, -⟩ := formatUint_spec n
  have hnn : ¬ ((n : Int) < 0) := by omega
  simp only [appendInt, hnn, if_false, Int.natAbs_ofNat, List.nil_append]
  refine ⟨?_, ?_, ?_⟩
  · simp; omega
  · intro c hc
    rw [List.mem_append] at hc
    rcases hc with hc | hc
    · rw [(List.mem_replicate.mp hc).2]; decide
    · exact i1 c hc
  · rw [digitsVal_zeros_append, i2]

theorem takeWhile_digits (ds : List Char) (c : Char) (rest : List Char)
    (hds : ∀ x ∈ ds, isDigit x = true) (hc : isDigit c = false) :
    (ds ++ c :: rest).takeWhile isDigit = ds ∧ (ds ++ c :: rest).dropWhile isDigit = c :: rest := by
  induction ds with
  | nil => simp [List.takeWhile, List.dropWhile, hc]
  | cons a ds ih =>
    have ha : isDigit a = true := hds a (List.mem_cons_self _ _)
    have ih2 := ih (fun x hx => hds x (List.mem_cons_of_mem _ hx))
    simp [List.takeWhile, List.dropWhile, ha, ih2.1, ih2.2]

theorem readInt_formatInt (x : Int) (c : Char) (rest : List Char) (hc : isDigit c = false) :
    readInt (formatInt x ++ c :: rest) = some (x, c :: rest) := by
  obtain ⟨i1, i2, i3, i4⟩ := formatUint_spec x.natAbs
  obtain ⟨d, ds, hds⟩ := List.exists_cons_of_ne_nil i3
  have hd : isDigit d = true := i1 d (by rw [hds]; exact List.mem_cons_self _ _)
  have hdm : d ≠ '-' := by
    intro h; rw [h] at hd; revert hd; decide
  have htw := takeWhile_digits (formatUint x.natAbs) c rest i1 hc
  have hlead : ¬ (1 < (formatUint x.natAbs).length ∧ (formatUint x.natAbs).head? = some '0') := by
    rintro ⟨hl, h0⟩
    have hz := i4 h0
    rw [hz, formatUint_lt (by omega)] at hl
    simp at hl
  by_cases hx : x < 0
  · have hf : formatInt x = '-' :: formatUint x.natAbs := by simp [formatInt, hx]
    rw [hf]
    simp only [readInt, List.cons_append, List.head?_cons, if_true, List.drop_succ_cons,
      List.drop_zero, htw.1, htw.2, i3, if_false, hlead, i2]
    congr 2
    omega
  · have hf : formatInt x = formatUint x.natAbs := by simp [formatInt, hx]
    have hhead : (formatUint x.natAbs ++ c :: rest).head? ≠ some '-' := by
      rw [hds]; simpa using hdm
    rw [hf]
    simp only [readInt, hhead, if_false, htw.1, htw.2, i3, hlead, i2]
    congr 2
    omega

theorem readGoInt_formatInt (x : Int) (c : Char) (rest : List Char) (hc : isDigit c = false)
    (hx : inIntRange x) : readGoInt (formatInt x ++ c :: rest) = some (x, c :: rest) := by
  simp [readGoInt, readInt_formatInt x c rest hc, hx]

theorem stripPrefix_append (p s : List Char) : stripPrefix p (p ++ s) = some s := by
  simp [stripPrefix]

/-! ## The fractional second -/

theorem trimZeros_spec (ds : List Char) :
    ∃ k, ds = trimZeros ds ++ List.replicate k '0' := by
  refine ⟨(ds.reverse.takeWhile (fun c => c == '0')).length, ?_⟩
  have hsplit := List.takeWhile_append_dropWhile (fun c => c == '0') ds.reverse
  have hall : ∀ x ∈ ds.reverse.takeWhile (fun c => c == '0'), x = '0' := by
    intro x hx
    have := List.mem_takeWhile_imp hx
    simpa using this
  have hrep : ds.reverse.takeWhile (fun c => c == '0')
      = List.replicate (ds.reverse.takeWhile (fun c => c == '0')).length '0' :=
    List.eq_replicate_iff.mpr ⟨rfl, hall⟩
  have h2 : ds = (ds.reverse.dropWhile (fun c => c == '0')).reverse ++
      (ds.reverse.takeWhile (fun c => c == '0')).reverse := by
    rw [← List.reverse_append, hsplit, List.reverse_reverse]
  rw [hrep, List.reverse_replicate] at h2
  simpa [trimZeros] using h2

theorem trimZeros_mem (ds : List Char) (c : Char) (hc : c ∈ trimZeros ds) : c ∈ ds := by
  unfold trimZeros at hc
  rw [List.mem_reverse] at hc
  have := (List.dropWhile_sublist (fun c => c == '0')).subset hc
  simpa using this

/-- Reading back the fractional second written by `formatNano`, in front of a
zone that starts with the byte `z`. -/
theorem frac_roundtrip (nsec : Nat) (hn : nsec < 10 ^ 9) (z : Char) (zs : List Char)
    (hz : isDigit z = false) (hzp : z ≠ '.') :
    (formatNano nsec ++ z :: zs).drop (fracLength (formatNano nsec ++ z :: zs)) = z :: zs ∧
      (if fracLength (formatNano nsec ++ z :: zs) = 0 then 0
        else parseNanoseconds (formatNano nsec ++ z :: zs)
          (fracLength (formatNano nsec ++ z :: zs))) = nsec := by
  by_cases h0 : nsec = 0
  · subst h0
    have hfl : fracLength (z :: zs) = 0 := by
      simp [fracLength, hzp]
    simp [formatNano, hfl]
  · obtain ⟨f1, f2, f3⟩ := appendInt_field nsec 9 (by omega) hn
    obtain ⟨k, hk⟩ := trimZeros_spec (appendInt (nsec : Int) 9)
    have hmem : ∀ c ∈ trimZeros (appendInt (nsec : Int) 9), isDigit c = true :=
      fun c hc => f2 c (trimZeros_mem _ c hc)
    have hval : digitsVal (trimZeros (appendInt (nsec : Int) 9)) * 10 ^ k = nsec := by
      rw [← digitsVal_append_zeros, ← hk, f3]
    have hlen : (trimZeros (appendInt (nsec : Int) 9)).length + k = 9 := by
      have := congrArg List.length hk
      rw [List.length_append, List.length_replicate, f1] at this
      omega
    generalize hTd : trimZeros (appendInt (nsec : Int) 9) = T at hk hmem hval hlen
    cases T with
    | nil =>
      simp [digitsVal] at hval
      omega
    | cons a T =>
      have ha : isDigit a = true := hmem a (List.mem_cons_self _ _)
      have hT : ∀ x ∈ T, isDigit x = true := fun x hx => hmem x (List.mem_cons_of_mem _ hx)
      have htw := takeWhile_digits T z zs hT hz
      have hform : formatNano nsec ++ z :: zs = '.' :: a :: (T ++ z :: zs) := by
        simp [formatNano, h0, hTd]
      have hfl : fracLength ('.' :: a :: (T ++ z :: zs)) = 2 + T.length := by
        simp [fracLength, ha, htw.1]
      have hlen2 : T.length + 1 + k = 9 := by simpa using hlen
      rw [hform, hfl]
      refine ⟨?_, ?_⟩
      · rw [Nat.add_comm 2 T.length]
        simp [List.drop_append]
      · have hmin : min (2 + T.length) 10 = 2 + T.length := by omega
        have hsl : slice ('.' :: a :: (T ++ z :: zs)) 1 (2 + T.length) = a :: T := by
          have h1 : 2 + T.length - 1 = T.length + 1 := by omega
          simp [slice, h1, List.take_append]
        have hk2 : 10 - (2 + T.length) = k := by omega
        rw [if_neg (by omega)]
        simp only [parseNanoseconds, hmin, hsl, hk2]
        exact hval

/-! ## Fields of fixed width and the zone -/

theorem parseUintRange_field (ds : List Char) (lo hi : Nat)
    (hd : ∀ c ∈ ds, isDigit c = true) (hlo : lo ≤ digitsVal ds) (hhi : digitsVal ds ≤ hi) :
    parseUintRange ds lo hi = some (digitsVal ds) := by
  have hall : ds.all isDigit = true := List.all_eq_true.mpr hd
  have hr : ¬ (digitsVal ds < lo ∨ hi < digitsVal ds) := by omega
  simp [parseUintRange, hall, hr]

theorem two_digits (n : Nat) (hn : n < 100) :
    ∃ a b, appendInt (n : Int) 2 = [a, b] ∧ isDigit a = true ∧ isDigit b = true ∧
      digitsVal [a, b] = n := by
  obtain ⟨f1, f2, f3⟩ := appendInt_field n 2 (by omega) (by omega)
  obtain ⟨a, b, hab⟩ := List.length_eq_two.mp f1
  rw [hab] at f2 f3
  exact ⟨a, b, hab, f2 a (by simp), f2 b (by simp), f3⟩

theorem four_digits (n : Nat) (hn : n < 10000) :
    ∃ a b c d, appendInt (n : Int) 4 = [a, b, c, d] ∧ isDigit a = true ∧ isDigit b = true ∧
      isDigit c = true ∧ isDigit d = true ∧ digitsVal [a, b, c, d] = n := by
  obtain ⟨f1, f2, f3⟩ := appendInt_field n 4 (by omega) (by omega)
  generalize appendInt (n : Int) 4 = l at f1 f2 f3
  match l, f1 with
  | [a, b, c, d], _ =>
    exact ⟨a, b, c, d, rfl, f2 a (by simp), f2 b (by simp), f2 c (by simp), f2 d (by simp), f3⟩

theorem tdiv_sixty (off : Int) :
    Int.tdiv off 60 =
      if off < 0 then -((off.natAbs / 60 : Nat) : Int) else ((off.natAbs / 60 : Nat) : Int) := by
  cases off with
  | ofNat n =>
    have h : ¬ ((Int.ofNat n) < 0) := by simp
    rw [if_neg h]
    rfl
  | negSucc n =>
    have h : Int.negSucc n < 0 := Int.negSucc_lt_zero n
    rw [if_pos h]
    rfl

/-- The text of a zone and the offset it reads back to. -/
theorem parseZone_six (sg a b c d : Char) (hsg : sg = '-' ∨ sg = '+')
    (ha : isDigit a = true) (hb : isDigit b = true) (hc : isDigit c = true)
    (hd : isDigit d = true) (hh : digitsVal [a, b] ≤ 23) (hm : digitsVal [c, d] ≤ 59) :
    parseZone [sg, a, b, ':', c, d] =
      some (if sg = '-' then -(((digitsVal [a, b] * 60 + digitsVal [c, d]) * 60 : Nat) : Int)
        else (((digitsVal [a, b] * 60 + digitsVal [c, d]) * 60 : Nat) : Int)) := by
  have h1 : parseUintRange [a, b] 0 23 = some (digitsVal [a, b]) :=
    parseUintRange_field _ _ _ (by simp [ha, hb]) (by omega) hh
  have h2 : parseUintRange [c, d] 0 59 = some (digitsVal [c, d]) :=
    parseUintRange_field _ _ _ (by simp [hc, hd]) (by omega) hm
  have hsl1 : slice [sg, a, b, ':', c, d] 1 3 = [a, b] := rfl
  have hsl2 : slice [sg, a, b, ':', c, d] 4 6 = [c, d] := rfl
  have hne : ([sg, a, b, ':', c, d] : List Char) ≠ ['Z'] := by simp
  have hg0 : ([sg, a, b, ':', c, d] : List Char).get? 0 = some sg := rfl
  have hg3 : ([sg, a, b, ':', c, d] : List Char).get? 3 = some ':' := rfl
  have hsg2 : (some sg = some '-' ∨ some sg = some '+') := by
    rcases hsg with h | h <;> simp [h]
  unfold parseZone
  rw [if_neg hne, if_neg (by simp), hsl1, hsl2, h1, h2]
  simp only [hg0, hg3]
  rw [if_pos ⟨hsg2, trivial⟩]
  by_cases hs : sg = '-' <;> simp [hs]

/-- The zone `formatZone` writes for an offset of whole minutes within a day
is `Z` for zero, else a sign and two fields of two digits that read back to
the offset, the hour below 24. -/
theorem formatZone_cases (off : Int) (h60 : off % 60 = 0) (hlo : -86400 < off)
    (hhi : off < 86400) :
    (off = 0 ∧ formatZone off = ['Z']) ∨
      ∃ sg a b c d, formatZone off = [sg, a, b, ':', c, d] ∧ (sg = '-' ∨ sg = '+') ∧
        isDigit a = true ∧ isDigit b = true ∧ isDigit c = true ∧ isDigit d = true ∧
        digitsVal [a, b] ≤ 23 ∧ digitsVal [c, d] ≤ 59 ∧
        off = (if sg = '-' then -(((digitsVal [a, b] * 60 + digitsVal [c, d]) * 60 : Nat) : Int)
          else (((digitsVal [a, b] * 60 + digitsVal [c, d]) * 60 : Nat) : Int)) := by
  by_cases h0 : off = 0
  · left; exact ⟨h0, by simp [formatZone, h0]⟩
  · right
    have hm1 : off.natAbs / 60 / 60 < 100 := by omega
    have hm2 : off.natAbs / 60 % 60 < 100 := by omega
    obtain ⟨a, b, hab, ha, hb, hvab⟩ := two_digits (off.natAbs / 60 / 60) hm1
    obtain ⟨c, d, hcd, hc, hd, hvcd⟩ := two_digits (off.natAbs / 60 % 60) hm2
    have habs : (if Int.tdiv off 60 < 0 then -Int.tdiv off 60 else Int.tdiv off 60)
        = ((off.natAbs / 60 : Nat) : Int) := by
      rw [tdiv_sixty]
      by_cases hneg : off < 0
      · simp only [hneg, if_true]
        split <;> omega
      · simp only [hneg, if_false]
        split <;> omega
    have hsign : (Int.tdiv off 60 < 0) ↔ off < 0 := by
      rw [tdiv_sixty]
      by_cases hneg : off < 0
      · simp only [hneg, if_true, iff_true]; omega
      · simp only [hneg, if_false, iff_false]; omega
    have hq : (((off.natAbs / 60 : Nat) : Int) / 60) = ((off.natAbs / 60 / 60 : Nat) : Int) := by
      omega
    have hr : (((off.natAbs / 60 : Nat) : Int) % 60) = ((off.natAbs / 60 % 60 : Nat) : Int) := by
      omega
    refine ⟨if off < 0 then '-' else '+', a, b, c, d, ?_, ?_, ha, hb, hc, hd, ?_, ?_, ?_⟩
    · simp only [formatZone, h0, if_false]
      rw [habs, hq, hr, hab, hcd]
      simp only [hsign]
      rfl
    · by_cases hneg : off < 0 <;> simp [hneg]
    · rw [hvab]; omega
    · rw [hvcd]; omega
    · rw [hvab, hvcd]
      by_cases hneg : off < 0
      · simp only [hneg, if_true]; omega
      · have hpm : ('+' : Char) ≠ '-' := by decide
        simp only [hneg, if_false, hpm]; omega

/-! ## The timestamp -/

theorem daysIn_le (m : Nat) (y : Int) : daysIn m y ≤ 31 := by
  unfold daysIn
  split
  · split <;> omega
  · omega

/-- The shape of the RFC 3339 text of a valid, expressible time: six fields of
fixed width between their separators, then the fraction and the zone. -/
theorem format_shape (t : Time) (hv : t.Valid) (he : t.Expressible) :
    ∃ y0 y1 y2 y3 m0 m1 d0 d1 h0 h1 i0 i1 s0 s1 : Char,
      t.appendFormatRFC3339 =
        y0 :: y1 :: y2 :: y3 :: '-' :: m0 :: m1 :: '-' :: d0 :: d1 :: 'T' :: h0 :: h1 :: ':' ::
          i0 :: i1 :: ':' :: s0 :: s1 :: (formatNano t.nsec ++ formatZone t.offset) ∧
      (∀ c ∈ [y0, y1, y2, y3, m0, m1, d0, d1, h0, h1, i0, i1, s0, s1], isDigit c = true) ∧
      ((digitsVal [y0, y1, y2, y3] : Nat) : Int) = t.year ∧ digitsVal [m0, m1] = t.month ∧
      digitsVal [d0, d1] = t.day ∧ digitsVal [h0, h1] = t.hour ∧
      digitsVal [i0, i1] = t.minute ∧ digitsVal [s0, s1] = t.second := by
  obtain ⟨hm1, hm2, hd1, hd2, hh, hmi, hs, hns⟩ := hv
  obtain ⟨hy1, hy2, -, -, -⟩ := he
  have hdl := daysIn_le t.month t.year
  have hy : t.year = ((t.year.toNat : Nat) : Int) := (Int.toNat_of_nonneg hy1).symm
  obtain ⟨y0, y1, y2, y3, eY, py0, py1, py2, py3, vY⟩ := four_digits t.year.toNat (by omega)
  obtain ⟨m0, m1, eM, pm0, pm1, vM⟩ := two_digits t.month (by omega)
  obtain ⟨d0, d1, eD, pd0, pd1, vD⟩ := two_digits t.day (by omega)
  obtain ⟨h0, h1, eH, ph0, ph1, vH⟩ := two_digits t.hour (by omega)
  obtain ⟨i0, i1, eI, pi0, pi1, vI⟩ := two_digits t.minute (by omega)
  obtain ⟨s0, s1, eS, ps0, ps1, vS⟩ := two_digits t.second (by omega)
  rw [← hy] at eY
  refine ⟨y0, y1, y2, y3, m0, m1, d0, d1, h0, h1, i0, i1, s0, s1, ?_, ?_, ?_, vM, vD, vH, vI,
    vS⟩
  · simp only [Time.appendFormatRFC3339, eY, eM, eD, eH, eI, eS]
    simp
  · intro c hc
    simp only [List.mem_cons, List.mem_singleton, List.not_mem_nil, or_false] at hc
    rcases hc with h | h | h | h | h | h | h | h | h | h | h | h | h | h <;> rw [h] <;>
      assumption
  · rw [vY]; exact hy.symm

theorem last_six (P Z : List Char) (hZ : Z.length = 6) :
    (P ++ Z).get? ((P ++ Z).length - 6) = Z.get? 0 ∧
      (P ++ Z).drop ((P ++ Z).length - 5) = Z.drop 1 := by
  have h1 : (P ++ Z).length - 6 = P.length := by rw [List.length_append]; omega
  have h2 : (P ++ Z).length - 5 = P.length + 1 := by rw [List.length_append]; omega
  rw [h1, h2]
  constructor
  · simp [List.getElem?_append_right]
  · rw [List.drop_append]

/-- For a valid, expressible time the strict formatter accepts the text. -/
theorem appendStrictRFC3339_ok (t : Time) (hv : t.Valid) (he : t.Expressible) :
    t.appendStrictRFC3339 = .ok t.appendFormatRFC3339 := by
  obtain ⟨y0, y1, y2, y3, m0, m1, d0, d1, h0, h1, i0, i1, s0, s1, hshape, -⟩ :=
    format_shape t hv he
  have hg4 : t.appendFormatRFC3339.get? 4 = some '-' := by rw [hshape]; rfl
  unfold Time.appendStrictRFC3339
  simp only [hg4, ne_eq, not_true_eq_false, if_false]
  by_cases hlast : t.appendFormatRFC3339.getLast? = some 'Z'
  · simp [hlast]
  · rw [if_pos hlast]
    rcases formatZone_cases t.offset he.2.2.1 he.2.2.2.1 he.2.2.2.2 with
      ⟨-, hz⟩ | ⟨sg, a, b, c, d, hz, hsg, ha, hb, hc, hd, hh, hm, -⟩
    · exfalso
      apply hlast
      have hsplit : t.appendFormatRFC3339 =
          (y0 :: y1 :: y2 :: y3 :: '-' :: m0 :: m1 :: '-' :: d0 :: d1 :: 'T' :: h0 :: h1 ::
            ':' :: i0 :: i1 :: ':' :: s0 :: s1 :: formatNano t.nsec) ++ ['Z'] := by
        rw [hshape, hz]; simp
      rw [hsplit]
      exact List.getLast?_concat _
    · have hsplit : t.appendFormatRFC3339 =
          (y0 :: y1 :: y2 :: y3 :: '-' :: m0 :: m1 :: '-' :: d0 :: d1 :: 'T' :: h0 :: h1 ::
            ':' :: i0 :: i1 :: ':' :: s0 :: s1 :: formatNano t.nsec) ++
            [sg, a, b, ':', c, d] := by
        rw [hshape, hz]; simp
      obtain ⟨l1, l2⟩ := last_six
        (y0 :: y1 :: y2 :: y3 :: '-' :: m0 :: m1 :: '-' :: d0 :: d1 :: 'T' :: h0 :: h1 ::
            ':' :: i0 :: i1 :: ':' :: s0 :: s1 :: formatNano t.nsec) [sg, a, b, ':', c, d] rfl
      rw [← hsplit] at l1 l2
      have hsgd : isDigit sg = false := by
        rcases hsg with h | h <;> rw [h] <;> decide
      have hnum : num2 [a, b, ':', c, d] = digitsVal [a, b] := by
        simp [num2, digitsVal]; ring
      have hcond : ¬ (isDigit ((t.appendFormatRFC3339.get?
            (t.appendFormatRFC3339.length - 6)).getD '0') = true ∨
          num2 (t.appendFormatRFC3339.drop (t.appendFormatRFC3339.length - 5)) ≥ 24) := by
        rw [l1, l2]
        simp only [List.get?, Option.getD_some, hsgd, List.drop_succ_cons, List.drop_zero, hnum]
        simp
        omega
      simp only [hcond, if_false]

/-- The zone text starts with a byte that is neither a digit nor a point, and
reads back to the offset. -/
theorem zone_roundtrip (off : Int) (h60 : off % 60 = 0) (hlo : -86400 < off)
    (hhi : off < 86400) :
    ∃ z zs, formatZone off = z :: zs ∧ isDigit z = false ∧ z ≠ '.' ∧
      parseZone (z :: zs) = some off := by
  rcases formatZone_cases off h60 hlo hhi with
    ⟨h0, hz⟩ | ⟨sg, a, b, c, d, hz, hsg, ha, hb, hc, hd, hh, hm, hoff⟩
  · refine ⟨'Z', [], hz, by decide, by decide, ?_⟩
    rw [h0]; rfl
  · refine ⟨sg, [a, b, ':', c, d], hz, ?_, ?_, ?_⟩
    · rcases hsg with h | h <;> rw [h] <;> decide
    · rcases hsg with h | h <;> rw [h] <;> decide
    · rw [parseZone_six sg a b c d hsg ha hb hc hd hh hm, ← hoff]

/-- Reading the RFC 3339 text of a valid, expressible time gives the time
back. -/
theorem parseRFC3339_format (t : Time) (hv : t.Valid) (he : t.Expressible) :
    parseRFC3339 t.appendFormatRFC3339 = some t := by
  obtain ⟨y0, y1, y2, y3, m0, m1, d0, d1, h0, h1, i0, i1, s0, s1, hshape, hdig, vY, vM, vD,
    vH, vI, vS⟩ := format_shape t hv he
  obtain ⟨z, zs, hz, hzd, hzp, hpz⟩ :=
    zone_roundtrip t.offset he.2.2.1 he.2.2.2.1 he.2.2.2.2
  obtain ⟨hfd, hfn⟩ := frac_roundtrip t.nsec hv.2.2.2.2.2.2.2 z zs hzd hzp
  obtain ⟨hm1, hm2, hd1, hd2, hh, hmi, hs, -⟩ := hv
  obtain ⟨hy1, hy2, -, -, -⟩ := he
  have py0 := hdig y0 (by simp)
  have py1 := hdig y1 (by simp)
  have py2 := hdig y2 (by simp)
  have py3 := hdig y3 (by simp)
  have pm0 := hdig m0 (by simp)
  have pm1 := hdig m1 (by simp)
  have pd0 := hdig d0 (by simp)
  have pd1 := hdig d1 (by simp)
  have ph0 := hdig h0 (by simp)
  have ph1 := hdig h1 (by simp)
  have pi0 := hdig i0 (by simp)
  have pi1 := hdig i1 (by simp)
  have ps0 := hdig s0 (by simp)
  have ps1 := hdig s1 (by simp)
  have pY : parseUintRange [y0, y1, y2, y3] 0 9999 = some (digitsVal [y0, y1, y2, y3]) :=
    parseUintRange_field _ _ _ (by simp [py0, py1, py2, py3]) (by omega) (by omega)
  have pM : parseUintRange [m0, m1] 1 12 = some (digitsVal [m0, m1]) :=
    parseUintRange_field _ _ _ (by simp [pm0, pm1]) (by omega) (by omega)
  have pH : parseUintRange [h0, h1] 0 23 = some (digitsVal [h0, h1]) :=
    parseUintRange_field _ _ _ (by simp [ph0, ph1]) (by omega) (by omega)
  have pI : parseUintRange [i0, i1] 0 59 = some (digitsVal [i0, i1]) :=
    parseUintRange_field _ _ _ (by simp [pi0, pi1]) (by omega) (by omega)
  have pS : parseUintRange [s0, s1] 0 59 = some (digitsVal [s0, s1]) :=
    parseUintRange_field _ _ _ (by simp [ps0, ps1]) (by omega) (by omega)
  have pD : parseUintRange [d0, d1] 1
      (daysIn (digitsVal [m0, m1]) ((digitsVal [y0, y1, y2, y3] : Nat) : Int))
      = some (digitsVal [d0, d1]) :=
    parseUintRange_field _ _ _ (by simp [pd0, pd1]) (by omega)
      (by rw [vM, vY, vD]; exact hd2)
  rw [hshape, hz]
  generalize hF : formatNano t.nsec ++ z :: zs = F at hfd hfn
  have hlen : ¬ ((y0 :: y1 :: y2 :: y3 :: '-' :: m0 :: m1 :: '-' :: d0 :: d1 :: 'T' :: h0 ::
      h1 :: ':' :: i0 :: i1 :: ':' :: s0 :: s1 :: F).length < 19) := by
    simp only [List.length_cons]; omega
  unfold parseRFC3339
  rw [if_neg hlen]
  have e1 : slice (y0 :: y1 :: y2 :: y3 :: '-' :: m0 :: m1 :: '-' :: d0 :: d1 :: 'T' :: h0 ::
      h1 :: ':' :: i0 :: i1 :: ':' :: s0 :: s1 :: F) 0 4 = [y0, y1, y2, y3] := rfl
  have e2 : slice (y0 :: y1 :: y2 :: y3 :: '-' :: m0 :: m1 :: '-' :: d0 :: d1 :: 'T' :: h0 ::
      h1 :: ':' :: i0 :: i1 :: ':' :: s0 :: s1 :: F) 5 7 = [m0, m1] := rfl
  have e3 : slice (y0 :: y1 :: y2 :: y3 :: '-' :: m0 :: m1 :: '-' :: d0 :: d1 :: 'T' :: h0 ::
      h1 :: ':' :: i0 :: i1 :: ':' :: s0 :: s1 :: F) 8 10 = [d0, d1] := rfl
  have e4 : slice (y0 :: y1 :: y2 :: y3 :: '-' :: m0 :: m1 :: '-' :: d0 :: d1 :: 'T' :: h0 ::
      h1 :: ':' :: i0 :: i1 :: ':' :: s0 :: s1 :: F) 11 13 = [h0, h1] := rfl
  have e5 : slice (y0 :: y1 :: y2 :: y3 :: '-' :: m0 :: m1 :: '-' :: d0 :: d1 :: 'T' :: h0 ::
      h1 :: ':' :: i0 :: i1 :: ':' :: s0 :: s1 :: F) 14 16 = [i0, i1] := rfl
  have e6 : slice (y0 :: y1 :: y2 :: y3 :: '-' :: m0 :: m1 :: '-' :: d0 :: d1 :: 'T' :: h0 ::
      h1 :: ':' :: i0 :: i1 :: ':' :: s0 :: s1 :: F) 17 19 = [s0, s1] := rfl
  have e7 : (y0 :: y1 :: y2 :: y3 :: '-' :: m0 :: m1 :: '-' :: d0 :: d1 :: 'T' :: h0 ::
      h1 :: ':' :: i0 :: i1 :: ':' :: s0 :: s1 :: F).drop 19 = F := rfl
  have g4 : (y0 :: y1 :: y2 :: y3 :: '-' :: m0 :: m1 :: '-' :: d0 :: d1 :: 'T' :: h0 ::
      h1 :: ':' :: i0 :: i1 :: ':' :: s0 :: s1 :: F).get? 4 = some '-' := rfl
  have g7 : (y0 :: y1 :: y2 :: y3 :: '-' :: m0 :: m1 :: '-' :: d0 :: d1 :: 'T' :: h0 ::
      h1 :: ':' :: i0 :: i1 :: ':' :: s0 :: s1 :: F).get? 7 = some '-' := rfl
  have g10 : (y0 :: y1 :: y2 :: y3 :: '-' :: m0 :: m1 :: '-' :: d0 :: d1 :: 'T' :: h0 ::
      h1 :: ':' :: i0 :: i1 :: ':' :: s0 :: s1 :: F).get? 10 = some 'T' := rfl
  have g13 : (y0 :: y1 :: y2 :: y3 :: '-' :: m0 :: m1 :: '-' :: d0 :: d1 :: 'T' :: h0 ::
      h1 :: ':' :: i0 :: i1 :: ':' :: s0 :: s1 :: F).get? 13 = some ':' := rfl
  have g16 : (y0 :: y1 :: y2 :: y3 :: '-' :: m0 :: m1 :: '-' :: d0 :: d1 :: 'T' :: h0 ::
      h1 :: ':' :: i0 :: i1 :: ':' :: s0 :: s1 :: F).get? 16 = some ':' := rfl
  rw [e1, e2, e3, e4, e5, e6, e7, g4, g7, g10, g13, g16, pY, pM, pH, pI, pS]
  simp only [pD, and_self, if_true, hfd, hpz, hfn]
  rw [vY, vM, vD, vH, vI, vS]

/-! ## The JSON text of a record -/

theorem takeWhile_stop (p : Char → Bool) (A : List Char) (x : Char) (B : List Char)
    (hA : ∀ a ∈ A, p a = true) (hx : p x = false) :
    (A ++ x :: B).takeWhile p = A ∧ (A ++ x :: B).dropWhile p = x :: B := by
  induction A with
  | nil => simp [List.takeWhile, List.dropWhile, hx]
  | cons a A ih =>
    have ha : p a = true := hA a (List.mem_cons_self _ _)
    have ih2 := ih (fun y hy => hA y (List.mem_cons_of_mem _ hy))
    simp [List.takeWhile, List.dropWhile, ha, ih2.1, ih2.2]

theorem isDigit_ne_brace {c : Char} (h : isDigit c = true) : (c != '\x7d') = true := by
  have hb : isDigit '\x7d' = false := by decide
  simp only [bne_iff_ne, ne_eq]
  intro hc
  rw [hc, hb] at h
  cases h

theorem formatNano_chars (n : Nat) (hn : n < 10 ^ 9) :
    ∀ c ∈ formatNano n, (c != '\x7d') = true := by
  intro c hc
  unfold formatNano at hc
  split at hc
  · simp at hc
  · rw [List.mem_cons] at hc
    rcases hc with h | h
    · rw [h]; decide
    · exact isDigit_ne_brace ((appendInt_field n 9 (by omega) hn).2.1 c (trimZeros_mem _ c h))

/-- No byte of the RFC 3339 text of a valid, expressible time is a closing
brace. -/
theorem format_chars (t : Time) (hv : t.Valid) (he : t.Expressible) :
    ∀ c ∈ t.appendFormatRFC3339, (c != '\x7d') = true := by
  obtain ⟨y0, y1, y2, y3, m0, m1, d0, d1, h0, h1, i0, i1, s0, s1, hshape, hdig, -⟩ :=
    format_shape t hv he
  have hzone : ∀ c ∈ formatZone t.offset, (c != '\x7d') = true := by
    rcases formatZone_cases t.offset he.2.2.1 he.2.2.2.1 he.2.2.2.2 with
      ⟨-, hz⟩ | ⟨sg, a, b, c, d, hz, hsg, ha, hb, hc, hd, -⟩
    · rw [hz]; intro c hc
      rw [List.mem_singleton] at hc
      rw [hc]; decide
    · rw [hz]; intro x hx
      simp only [List.mem_cons, List.mem_singleton, List.not_mem_nil, or_false] at hx
      rcases hx with h | h | h | h | h | h
      · rcases hsg with h2 | h2 <;> rw [h, h2] <;> decide
      · rw [h]; exact isDigit_ne_brace ha
      · rw [h]; exact isDigit_ne_brace hb
      · rw [h]; decide
      · rw [h]; exact isDigit_ne_brace hc
      · rw [h]; exact isDigit_ne_brace hd
  have hnano := formatNano_chars t.nsec hv.2.2.2.2.2.2.2
  have hd : ∀ x, x ∈ [y0, y1, y2, y3, m0, m1, d0, d1, h0, h1, i0, i1, s0, s1] →
      (x != '\x7d') = true := fun x hx => isDigit_ne_brace (hdig x hx)
  have hsep1 : (('-' : Char) != '\x7d') = true := by decide
  have hsep2 : (('T' : Char) != '\x7d') = true := by decide
  have hsep3 : ((':' : Char) != '\x7d') = true := by decide
  intro c hc
  rw [hshape] at hc
  simp only [List.mem_cons, List.mem_append] at hc
  rcases hc with h | h | h | h | h | h | h | h | h | h | h | h | h | h | h | h | h | h | h | h
  · exact hd c (by rw [h]; simp)
  · exact hd c (by rw [h]; simp)
  · exact hd c (by rw [h]; simp)
  · exact hd c (by rw [h]; simp)
  · rw [h]; exact hsep1
  · exact hd c (by rw [h]; simp)
  · exact hd c (by rw [h]; simp)
  · rw [h]; exact hsep1
  · exact hd c (by rw [h]; simp)
  · exact hd c (by rw [h]; simp)
  · rw [h]; exact hsep2
  · exact hd c (by rw [h]; simp)
  · exact hd c (by rw [h]; simp)
  · rw [h]; exact hsep3
  · exact hd c (by rw [h]; simp)
  · exact hd c (by rw [h]; simp)
  · rw [h]; exact hsep3
  · exact hd c (by rw [h]; simp)
  · exact hd c (by rw [h]; simp)
  · rcases h with h | h
    · exact hnano c h
    · exact hzone c h

theorem MarshalJSON_ok (t : Time) (hv : t.Valid) (he : t.Expressible) :
    t.MarshalJSON = .ok ('"' :: t.appendFormatRFC3339 ++ ['"']) := by
  simp [Time.MarshalJSON, appendStrictRFC3339_ok t hv he]

theorem UnmarshalJSON_MarshalJSON (t : Time) (hv : t.Valid) (he : t.Expressible) :
    Time.UnmarshalJSON ('"' :: t.appendFormatRFC3339 ++ ['"']) = some t := by
  have h1 : (t.appendFormatRFC3339 ++ ['"']).getLast? = some '"' := List.getLast?_concat _
  have h2 : (t.appendFormatRFC3339 ++ ['"']).dropLast = t.appendFormatRFC3339 := by simp
  have h3 : ('"' :: t.appendFormatRFC3339 ++ ['"']) = '"' :: (t.appendFormatRFC3339 ++ ['"']) :=
    rfl
  rw [h3]
  simp only [Time.UnmarshalJSON, h1, if_true, h2]
  exact parseRFC3339_format t hv he

/-- The text `json.Marshal` gives for a record with a valid, expressible
date. -/
theorem Marshal_ok (c : Contrato) (hv : c.FechaIngreso.Valid) (he : c.FechaIngreso.Expressible) :
    json.Marshal c = .ok ("\x7b\"contrato_numero\":".toList ++ formatInt c.ContratoNumero ++
      ",\"cliente_id\":".toList ++ formatInt c.ClienteID ++
      ",\"fecha_ingreso\":".toList ++ ('"' :: c.FechaIngreso.appendFormatRFC3339 ++ ['"']) ++
      "\x7d".toList) := by
  simp only [json.Marshal, MarshalJSON_ok c.FechaIngreso hv he]

/-- Decoding the marshalled text, followed by the newline the encoder adds,
gives the record back. -/
theorem Unmarshal_Marshal (c : Contrato) (hwf : c.WellFormed)
    (he : c.FechaIngreso.Expressible) (b : List Char) (hb : json.Marshal c = .ok b) :
    json.Unmarshal (b ++ ['\n']) = some c := by
  obtain ⟨hr1, hr2, hv⟩ := hwf
  rw [Marshal_ok c hv he] at hb
  injection hb with hb
  subst hb
  have hq : ∀ x ∈ ('"' :: c.FechaIngreso.appendFormatRFC3339 ++ ['"']),
      (x != '\x7d') = true := by
    intro x hx
    simp only [List.cons_append, List.mem_cons, List.mem_append, List.mem_singleton,
      List.not_mem_nil, or_false] at hx
    rcases hx with h | h | h
    · rw [h]; decide
    · exact format_chars c.FechaIngreso hv he x h
    · rw [h]; decide
  have hP2 : ",\"cliente_id\":".toList = ',' :: "\"cliente_id\":".toList := by decide
  have hP3 : ",\"fecha_ingreso\":".toList = ',' :: "\"fecha_ingreso\":".toList := by decide
  have hB : "\x7d".toList = ['\x7d'] := by decide
  have hcomma : isDigit ',' = false := by decide
  have hstop : (('\x7d' : Char) != '\x7d') = false := by decide
  have htw := takeWhile_stop (fun c => c != '\x7d')
    ('"' :: c.FechaIngreso.appendFormatRFC3339 ++ ['"']) '\x7d' ['\n'] hq hstop
  have hws : (['\n'] : List Char).all isSpace = true := by decide
  unfold json.Unmarshal
  simp only [List.append_assoc, stripPrefix_append]
  rw [hP2, List.cons_append, readGoInt_formatInt _ ',' _ hcomma hr1]
  simp only []
  rw [← List.cons_append, ← hP2, stripPrefix_append]
  simp only []
  rw [hP3, List.cons_append, readGoInt_formatInt _ ',' _ hcomma hr2]
  simp only []
  rw [← List.cons_append, ← hP3, stripPrefix_append]
  simp only [hB, List.singleton_append]
  simp only [List.cons_append, List.append_assoc, List.singleton_append, List.nil_append] at htw
  have hU : Time.UnmarshalJSON ('"' :: (c.FechaIngreso.appendFormatRFC3339 ++ ['"']))
      = some c.FechaIngreso := UnmarshalJSON_MarshalJSON _ hv he
  simp only [List.cons_append, List.append_assoc, List.singleton_append]
  rw [htw.1, htw.2, hU]
  simp only [hws, if_true]

/-! ## The success response -/

/-- C2 (as stated, refuted): row 10000 holds a record dated in the year 10000;
the repository returns it without error, yet the handler writes no body, so
nothing decodes back to the record.  Row 30 holds a record whose zone is
thirty seconds east of UTC; the body is written with the zone `+00:00` and
decodes to a different date. -/
theorem C2_counterexample :
    (strconv.Atoi ((requestFor "10000").query.Get "contrato_id") = .ok 10000 ∧
      repoStub.GetByID (requestFor "10000").ctx 10000
        = { contrato := some contratoY10K, err := none } ∧
      contratoY10K.WellFormed ∧
      ((NewContratoHandler repoStub).GetContrato ResponseWriter.fresh
        (requestFor "10000")).w.body = [] ∧
      json.Unmarshal ((NewContratoHandler repoStub).GetContrato ResponseWriter.fresh
        (requestFor "10000")).w.body ≠ some contratoY10K) ∧
    (strconv.Atoi ((requestFor "30").query.Get "contrato_id") = .ok 30 ∧
      repoStub.GetByID (requestFor "30").ctx 30
        = { contrato := some contratoZone30s, err := none } ∧
      contratoZone30s.WellFormed ∧
      ((NewContratoHandler repoStub).GetContrato ResponseWriter.fresh
        (requestFor "30")).w.body
        = "\x7b\"contrato_numero\":2,\"cliente_id\":2,\"fecha_ingreso\":\"2023-01-15T00:00:00+00:00\"\x7d\n".toList ∧
      json.Unmarshal ((NewContratoHandler repoStub).GetContrato ResponseWriter.fresh
        (requestFor "30")).w.body ≠ some contratoZone30s) := by
  decide

/-- C2 (amended): for a valid integer `contrato_id` for which the repository
returns a record and no error, the record being a value of the Go type and
its date one RFC 3339 can express (year in 0..9999, zone offset of whole
minutes within a day), the response has status 200, content type
`application/json`, and a body that decodes back to the same
`contrato_numero`, `cliente_id` and `fecha_ingreso`. -/
theorem C2_record_is_200_and_roundtrips (h : ContratoHandler) (w : ResponseWriter)
    (r : Request) (n : Int) (c : Contrato) (hw : w.code = none) (hbody : w.body = [])
    (hn : strconv.Atoi (r.query.Get "contrato_id") = .ok n)
    (hres : h.repo.GetByID r.ctx n = { contrato := some c, err := none })
    (hwf : c.WellFormed) (he : c.FechaIngreso.Expressible) :
    (h.GetContrato w r).w.status = 200 ∧
      (h.GetContrato w r).w.GetHeader "Content-Type" = "application/json" ∧
      json.Unmarshal (h.GetContrato w r).w.body = some c := by
  have hm := Marshal_ok c hwf.2.2 he
  rw [GetContrato_of_record h w r n hn (by rw [hres]) c (by rw [hres]) _ hm]
  refine ⟨?_, ?_, ?_⟩
  · simp [ResponseWriter.status, ResponseWriter.Write, ResponseWriter.WriteHeader,
      ResponseWriter.SetHeader, hw]
  · have hg := GetHeader_SetHeader_self w "Content-Type" "application/json"
    simpa [ResponseWriter.Write, ResponseWriter.WriteHeader, ResponseWriter.GetHeader,
      ResponseWriter.SetHeader, hw] using hg
  · have hb : ((w.SetHeader "Content-Type" "application/json").Write
        (("\x7b\"contrato_numero\":".toList ++ formatInt c.ContratoNumero ++
          ",\"cliente_id\":".toList ++ formatInt c.ClienteID ++
          ",\"fecha_ingreso\":".toList ++ ('"' :: c.FechaIngreso.appendFormatRFC3339 ++ ['"']) ++
          "\x7d".toList) ++ ['\n'])).1.body =
        ("\x7b\"contrato_numero\":".toList ++ formatInt c.ContratoNumero ++
          ",\"cliente_id\":".toList ++ formatInt c.ClienteID ++
          ",\"fecha_ingreso\":".toList ++ ('"' :: c.FechaIngreso.appendFormatRFC3339 ++ ['"']) ++
          "\x7d".toList) ++ ['\n'] := by
      simp [ResponseWriter.Write, ResponseWriter.WriteHeader, ResponseWriter.SetHeader, hw,
        hbody]
    rw [hb]
    exact Unmarshal_Marshal c hwf he _ hm

theorem C2_witness :
    (((NewContratoHandler repoStub).GetContrato ResponseWriter.fresh (requestFor "42")).w.status
        = 200 ∧
      ((NewContratoHandler repoStub).GetContrato ResponseWriter.fresh
        (requestFor "42")).w.GetHeader "Content-Type" = "application/json" ∧
      json.Unmarshal ((NewContratoHandler repoStub).GetContrato ResponseWriter.fresh
        (requestFor "42")).w.body = some contrato1001) ∧
      ((NewContratoHandler repoStub).GetContrato ResponseWriter.fresh (requestFor "42")).w.body
        = "\x7b\"contrato_numero\":1001,\"cliente_id\":7,\"fecha_ingreso\":\"2023-01-15T00:00:00Z\"\x7d\n".toList :=
  ⟨C2_record_is_200_and_roundtrips (NewContratoHandler repoStub) ResponseWriter.fresh
    (requestFor "42") 42 contrato1001 rfl rfl (by decide) (by decide) (by decide) (by decide),
    by decide⟩

end apiContrato
